import Mathlib

/-!
Shallow embedding of the asynchronous job lifecycle and multi-round tool
loop of the func-orchestr-mcp repository, together with theorems settling
the frozen claims about it.

Sources embedded:
  * `src/app/services/routing.py`   (`_route_mode`)
  * `src/app/services/tools.py`     (`normalize_allowed_tools`,
                                     `get_builtin_tools_config`,
                                     `resolve_mcp_config`)
  * `src/app/services/conversation.py` (`run_responses_with_tools`,
                                     `build_responses_args`)
  * `src/app/mcp_worker.py`         (`_update_job_status`,
                                     `mcp_process_worker`)

External collaborators -- the OpenAI/Azure generation service, the tool
HTTP backends, `json.loads`, `re.search`, `os.getenv`, the conversation
memory store -- are modelled as oracle functions bundled in records; the
blob store holding job records is threaded as explicit state.  Calls
that Python may raise from are modelled with `Except String`, the
payload standing for `str(e)`.
-/

namespace FuncOrch

/-- Python `str.lower` on a character, covering ASCII letters and the
accented uppercase letters relevant to this repository's marker strings. -/
def pyCharLower (c : Char) : Char :=
  if c = 'É' then 'é' else if c = 'È' then 'è' else if c = 'Ê' then 'ê'
  else if c = 'À' then 'à' else if c = 'Â' then 'â' else if c = 'Î' then 'î'
  else if c = 'Ï' then 'ï' else if c = 'Ô' then 'ô' else if c = 'Ç' then 'ç'
  else if c = 'Û' then 'û' else if c = 'Ù' then 'ù' else c.toLower

/-- Python `str.lower`. -/
def pyLower (s : String) : String := ⟨s.data.map pyCharLower⟩

/-- `p` is a prefix of the second list. -/
def listIsPrefix : List Char → List Char → Bool
  | [], _ => true
  | _ :: _, [] => false
  | a :: as, b :: bs => a == b && listIsPrefix as bs

/-- Substring containment over character lists. -/
def listContainsSub : List Char → List Char → Bool
  | [], needle => needle.isEmpty
  | c :: rest, needle => listIsPrefix needle (c :: rest) || listContainsSub rest needle

/-- Python substring test `k in s`. -/
def containsSub (s k : String) : Bool := listContainsSub s.data k.data

/-- Python `s.startswith(p)`. -/
def pyStartsWith (s p : String) : Bool := listIsPrefix p.data s.data

/-- Python `s.endswith(p)`. -/
def pyEndsWith (s p : String) : Bool := listIsPrefix p.data.reverse s.data.reverse

/-- Python `s.strip()`. -/
def pyTrim (s : String) : String :=
  ⟨((s.data.dropWhile Char.isWhitespace).reverse.dropWhile Char.isWhitespace).reverse⟩

/-- Python truthiness of an optional string (`None` and `""` are falsy). -/
def strTruthy : Option String → Bool
  | some s => !s.isEmpty
  | none => false

/-- Python `a or b` on optional strings (falsy `a`, i.e. `None` or `""`,
yields `b`). -/
def pyOrStr (a b : Option String) : Option String :=
  if strTruthy a then a else b

/-- A Python value as it can appear in a request body field (the subset
relevant to `normalize_allowed_tools`). -/
inductive PyVal where
  | pstr (s : String)
  | pint (n : Int)
  | pbool (b : Bool)
  | pfloat (repr : String)
  | plist (xs : List PyVal)
  | pdict
  | pnone

/-- `str(x)` for values passing `isinstance(x, (str, int, float))`
(`bool` is a subclass of `int` in Python); `none` when the isinstance
test fails, so `List.filterMap pyStrOfPrim` is the comprehension
`[str(x) for x in xs if isinstance(x, (str, int, float))]`. -/
def pyStrOfPrim : PyVal → Option String
  | .pstr s => some s
  | .pint n => some (toString n)
  | .pbool b => some (if b then "True" else "False")
  | .pfloat r => some r
  | _ => none

/-- Oracles standing for Python library calls whose behaviour the
repository does not define: `json.loads` (on array-shaped strings and on
tool-argument objects), the filename regex of the document-service
heuristic, `os.getenv`, and the system prompt loader. -/
structure PyEnv where
  jsonLoadsArr : String → Option (List PyVal)
  jsonLoadsObj : String → Option (List (String × String))
  findDocName : String → Option String
  orchestratorModelTools : Option String
  azureOpenAiModel : Option String
  toolsSseUrl : Option String
  toolsFunctionsKey : Option String
  systemMsg : String

/-- Python `s.split(",")` over the character list (`cur` is the
reversed current chunk). -/
def splitCommaAux : List Char → List Char → List String
  | [], cur => [String.mk cur.reverse]
  | c :: rest, cur =>
      if c == ',' then String.mk cur.reverse :: splitCommaAux rest []
      else splitCommaAux rest (c :: cur)

/-- `s.split(",")` + trim + drop empties, the comma branch of
`normalize_allowed_tools`. -/
def splitCommaTrim (s : String) : List String :=
  ((splitCommaAux s.data []).map pyTrim).filter (fun p => !p.isEmpty)

/-- Embedding of `normalize_allowed_tools` (src/app/services/tools.py,
lines 6-28).  The Python function catches every exception and returns
`None`; correspondingly this embedding is total, with `none` for every
path that returns `None` (including a failing `json.loads`). -/
def normalize_allowed_tools (env : PyEnv) : PyVal → Option (List String)
  | .plist xs =>
      match xs with
      | [.pstr s] =>
          let single := pyTrim s
          if pyStartsWith single "[" && pyEndsWith single "]" then
            match env.jsonLoadsArr single with
            | some parsed => some (parsed.filterMap pyStrOfPrim)
            | none => none
          else if containsSub single "," then
            some (splitCommaTrim single)
          else some ([PyVal.pstr s].filterMap pyStrOfPrim)
      | _ => some (xs.filterMap pyStrOfPrim)
  | .pstr s =>
      let trimmed := pyTrim s
      if pyStartsWith trimmed "[" && pyEndsWith trimmed "]" then
        match env.jsonLoadsArr trimmed with
        | some parsed => some (parsed.filterMap pyStrOfPrim)
        | none => none
      else if containsSub trimmed "," then
        some (splitCommaTrim trimmed)
      else if !trimmed.isEmpty then
        some [trimmed]
      else none
  | _ => none

/-- A tool dict as seen by the filtering and dispatch code: only the
keys `type`, `name` and `function.name` are ever read (`none` = key
absent). -/
structure ToolSpec where
  ttype : Option String
  name : Option String
  fname : Option String
  deriving DecidableEq

/-- `t.get("name") or t.get("function", {}).get("name")`. -/
def toolNameOpt (t : ToolSpec) : Option String := pyOrStr t.name t.fname

/-- The allow-list filtering of the Job Worker
(src/app/mcp_worker.py, lines 184-207): first `search_web` is dropped
unless the normalized allow-list mentions it or `"*"`, then, when an
allow-list was supplied and does not contain `"*"`, only tools whose
name is listed survive. -/
def applyAllowedFilter (normalized : Option (List String)) (tools : List ToolSpec) :
    List ToolSpec :=
  let gate : Bool :=
    match normalized with
    | some l => !l.isEmpty && (l.contains "*" || l.contains "search_web")
    | none => false
  let tools1 :=
    if !gate then
      tools.filter (fun t => !(toolNameOpt t == some "search_web"))
    else tools
  match normalized with
  | some l =>
      if !l.contains "*" then
        tools1.filter (fun t =>
          match toolNameOpt t with
          | some n => l.contains n
          | none => false)
      else tools1
  | none => tools1

/-- Deep-reasoning marker phrases of `_route_mode`
(src/app/services/routing.py, lines 42-68). -/
def deepMarkers : List String :=
  ["plan", "multi-step", "derive", "prove", "why", "strategy",
   "chain of thought", "plan d\x27action", "multi-etapes", "multi étapes",
   "démontrer", "demontrer", "prouve", "pourquoi", "stratégie",
   "strategie", "raisonnement", "chaine de raisonnement",
   "chaîne de raisonnement", "réfléchis", "reflechis", "pas à pas",
   "pas a pas", "analyse détaillée", "explication détaillée"]

/-- The constraint keys `_route_mode` reads.  Values are the `str()` of
whatever the caller supplied (`none` = key absent); `maxLatencyMs` is
`some n` exactly when the key is present and `int(...)` succeeds. -/
structure Constraints where
  preferReasoning : Option String
  prefer_reasoning : Option String
  maxLatencyMs : Option Int
  deriving DecidableEq

/-- Python truthiness of an optional string list (`None` and `[]`
falsy). -/
def listTruthy : Option (List String) → Bool
  | some l => !l.isEmpty
  | none => false

/-- The values accepted as boolean "yes". -/
def yesValues : List String := ["1", "true", "yes", "on"]

/-- Embedding of `_route_mode` (src/app/services/routing.py,
lines 14-77). -/
def route_mode (prompt : String) (has_tools : Bool) (constraints : Constraints)
    (allowed_tools : Option (List String)) : String :=
  if has_tools && listTruthy allowed_tools then "tools"
  else
    let prefer_reasoning :=
      yesValues.contains (pyLower (constraints.preferReasoning.getD "")) ||
      yesValues.contains (pyLower (constraints.prefer_reasoning.getD ""))
    let text := pyLower prompt
    if prefer_reasoning || deepMarkers.any (fun m => containsSub text m) ||
        prompt.length > 800 then
      match constraints.maxLatencyMs with
      | some v => if v < 1500 then "standard" else "deep"
      | none => "deep"
    else if prompt.length < 160 then "trivial"
    else "standard"

/-- A stored job record.  The named fields are the JSON keys the worker
code reads or writes (`none` = key absent); `extra` carries any further
keys of the JSON document (other writers of the store produce keys such
as `startedAt`, `duration_ms`, `error`). -/
structure JobRec where
  status : Option String
  progress : Option Int
  message : Option String
  tool : Option String
  partial_text : Option String
  final_text : Option String
  updatedAt : Option String
  createdAt : Option String
  selected_model : Option String
  mode : Option String
  used_tools : Option (List String)
  extra : List (String × String)
  deriving DecidableEq

/-- The record with no keys (the `existing = {}` of a failed read). -/
def emptyJobRec : JobRec :=
  ⟨none, none, none, none, none, none, none, none, none, none, none, []⟩

/-- Python truthiness of an optional string list value of a JSON key. -/
def usedToolsTruthy : Option (List String) → Bool
  | some l => !l.isEmpty
  | none => false

/-- `payload[k] = arg if arg else (existing[k] if existing.get(k) else absent)`:
the preserve-if-truthy pattern of `_update_job_status`. -/
def pickStr (arg ex : Option String) : Option String :=
  if strTruthy arg then arg else if strTruthy ex then ex else none

/-- Embedding of `_update_job_status` (src/app/mcp_worker.py,
lines 49-97) acting on a previously read record: the function builds a
fresh `payload` dict containing `status`, `progress`, `message`, `tool`,
`partial_text`, `final_text` and `updatedAt`, copies `used_tools`,
`createdAt`, `selected_model` and `mode` from the arguments or (when
those are falsy) from the existing record, and uploads `payload` with
`overwrite=True` -- so every other key of the prior record is dropped
(`extra := []`). -/
def updateJobStatusRec (existing : JobRec) (now : String) (status : String)
    (progress : Int) (message : String) (tool partialText finalText : String)
    (created_at selected_model mode : Option String)
    (used_tools : Option (List String)) : JobRec :=
  { status := some status
    progress := some progress
    message := some message
    tool := some tool
    partial_text := some partialText
    final_text := some finalText
    updatedAt := some now
    createdAt := pickStr created_at existing.createdAt
    selected_model := pickStr selected_model existing.selected_model
    mode := pickStr mode existing.mode
    used_tools :=
      match used_tools with
      | some l => some l
      | none => if usedToolsTruthy existing.used_tools then existing.used_tools else none
    extra := [] }

/-- `_update_job_status` at the store level: the existing record is read
(a missing blob reads as `{}`), the merged payload is computed and
stored. -/
def updateJobStatus (store : Option JobRec) (now : String) (status : String)
    (progress : Int) (message : String) (tool partialText finalText : String)
    (created_at selected_model mode : Option String)
    (used_tools : Option (List String)) : JobRec :=
  updateJobStatusRec (store.getD emptyJobRec) now status progress message
    tool partialText finalText created_at selected_model mode used_tools

/-- Tool-call arguments: a JSON object, modelled as a key-value list
(values abstracted to their string form; only passed through to the
executor oracle and recorded). -/
abbrev Args := List (String × String)

/-- The `arguments` attribute of a classic tool call: a JSON string or
an already-decoded object. -/
inductive RawArgs where
  | rstr (s : String)
  | rmap (m : Args)
  deriving DecidableEq

/-- A tool call of a `requires_action` response (`none` = attribute
absent / `None`). -/
structure ToolCall where
  cid : Option String
  ctype : Option String
  mcpMethod : Option String
  funcName : Option String
  funcArgs : Option RawArgs
  deriving DecidableEq

/-- An entry of the `used_tools` accumulator
(`{name, arguments, type, direct}`; `direct := false` when the key is
absent). -/
structure UsedTool where
  uname : String
  uargs : Option Args
  utype : String
  direct : Bool
  deriving DecidableEq

/-- A content part of a Responses-API input message. -/
structure Part where
  ptype : String
  text : Option String
  deriving DecidableEq

/-- A Responses-API input message. -/
structure Msg where
  role : String
  content : List Part
  deriving DecidableEq

/-- A generation-service response handle, restricted to the attributes
the loop reads (`toolCalls` is the
`required_action.submit_tool_outputs.tool_calls` chain, `[]` when any
link is missing -- both are falsy in the source's `if not calls`). -/
structure Response where
  rid : Option String
  rstatus : Option String
  toolCalls : List ToolCall
  outputText : Option String
  classicToolsUsed : Option (List UsedTool)
  deriving DecidableEq

/-- The request-arguments dict, restricted to the keys
`run_responses_with_tools` reads or rewrites (`model`, `input`,
`tools`, the internal `x_user_id`); the inert keys `text`, `store`,
`reasoning` and `tool_choice` are not modelled. -/
structure RespArgs where
  model : Option String
  input : List Msg
  tools : List ToolSpec
  xUserId : Option String
  deriving DecidableEq

/-- One `{tool_call_id, output}` pair sent back to the service. -/
structure ToolOutput where
  callId : String
  output : String
  deriving DecidableEq

/-- The trace of external calls made by the loop. -/
inductive Event where
  | create (args : RespArgs)
  | wait (rid : String)
  | submit (respId : Option String) (outputs : List ToolOutput) (model : Option String)
  | exec (nm : String) (args : Args)
  deriving DecidableEq

/-- The generation-service client and the tool executor as oracles.
Each method receives the trace of calls made so far, so an arbitrary
adaptive sequence of service responses is expressible; `Except.error e`
stands for a raised exception with `str(e) = e`. -/
structure Client where
  create : List Event → RespArgs → Except String Response
  waitFor : List Event → String → Except String Response
  submit : List Event → Option String → List ToolOutput → Option String → Except String Response
  execTool : List Event → String → Args → Option Args → Except String String

/-- `try: response = client.responses.wait(id=...) except: pass` after a
create or a submit (conversation.py lines 153-158 and 221-226). -/
def wrapWait (c : Client) (evs : List Event) (r : Response) : Response × List Event :=
  match r.rid with
  | some i =>
      match c.waitFor evs i with
      | .ok r2 => (r2, evs ++ [Event.wait i])
      | .error _ => (r, evs ++ [Event.wait i])
  | none => (r, evs)

/-- Accumulator of the per-round tool-call loop. -/
structure CallsAcc where
  outputs : List ToolOutput
  usedTools : List UsedTool
  executedAny : Bool
  events : List Event
  deriving DecidableEq

/-- `(getattr(call, "type", None) or "function").lower()`. -/
def callTypeOf (call : ToolCall) : String :=
  pyLower ((pyOrStr call.ctype (some "function")).getD "function")

/-- `getattr(func_obj, "name", None) or ""`. -/
def callNameOf (call : ToolCall) : String :=
  (pyOrStr call.funcName (some "")).getD ""

/-- `raw_args = getattr(func_obj, "arguments", None) or "{}"` followed by
`json.loads(raw_args) if isinstance(raw_args, str) else (raw_args or {})`,
with the surrounding `try` degrading a parse failure to `{}`
(`json.loads` on the literal string of an empty object is `{}`
unconditionally, so those paths are hardcoded). -/
def callArgsOf (env : PyEnv) (call : ToolCall) : Args :=
  match call.funcArgs with
  | none => []
  | some (.rstr s) => if s.isEmpty then [] else (env.jsonLoadsObj s).getD []
  | some (.rmap m) => m

/-- One iteration of the per-round tool-call loop (conversation.py
lines 182-216): an `mcp` call is acknowledged with an empty output and
recorded; a classic call has its arguments parsed (malformed JSON
degrades to `{}`) and is dispatched to `execute_tool_call`; a raising
dispatch yields the fixed output `"Tool execution failed."` for that
call and processing continues with the next call. -/
def processOneCall (c : Client) (env : PyEnv) (tc : Option Args)
    (acc : CallsAcc) (call : ToolCall) : CallsAcc :=
  let callId := call.cid.getD ""
  if callTypeOf call == "mcp" then
    { outputs := acc.outputs ++ [⟨callId, ""⟩]
      usedTools := acc.usedTools ++ [⟨call.mcpMethod.getD "", none, "mcp", false⟩]
      executedAny := true
      events := acc.events }
  else
    let nm := callNameOf call
    let args := callArgsOf env call
    match c.execTool acc.events nm args tc with
    | .ok out =>
        { outputs := acc.outputs ++ [⟨callId, out⟩]
          usedTools := acc.usedTools ++ [⟨nm, some args, "classic", false⟩]
          executedAny := true
          events := acc.events ++ [Event.exec nm args] }
    | .error _ =>
        { outputs := acc.outputs ++ [⟨callId, "Tool execution failed."⟩]
          usedTools := acc.usedTools
          executedAny := acc.executedAny
          events := acc.events ++ [Event.exec nm args] }

/-- The `for call in calls` loop of one round. -/
def processCalls (c : Client) (env : PyEnv) (tc : Option Args)
    (acc : CallsAcc) (calls : List ToolCall) : CallsAcc :=
  calls.foldl (processOneCall c env tc) acc

/-- Loop-local state of the tool loop. -/
structure LoopState where
  response : Response
  executedAny : Bool
  usedTools : List UsedTool
  events : List Event
  deriving DecidableEq

/-- Result of the tool loop; `raisedMsg = some e` when a
`submit_tool_outputs` call raised (that call is outside any `try`). -/
structure LoopOut where
  st : LoopState
  raisedMsg : Option String
  deriving DecidableEq

/-- The `for i in range(max_loops)` loop of `run_responses_with_tools`
(conversation.py lines 163-229), with `fuel` the remaining iterations
(started at `max_loops = 6`): an `in_progress` response is re-waited
(a raising wait breaks the loop; a missing id just consumes an
iteration); any other non-`requires_action` status breaks; otherwise
the pending calls are processed and their outputs submitted. -/
def toolLoop (c : Client) (env : PyEnv) (tc : Option Args) (modelName : Option String) :
    Nat → LoopState → LoopOut
  | 0, st => ⟨st, none⟩
  | fuel + 1, st =>
    if st.response.rstatus == some "in_progress" then
      match st.response.rid with
      | some i =>
          match c.waitFor st.events i with
          | .ok r2 =>
              toolLoop c env tc modelName fuel
                { st with response := r2, events := st.events ++ [Event.wait i] }
          | .error _ => ⟨{ st with events := st.events ++ [Event.wait i] }, none⟩
      | none => toolLoop c env tc modelName fuel st
    else if !(st.response.rstatus == some "requires_action") then ⟨st, none⟩
    else if st.response.toolCalls.isEmpty then ⟨st, none⟩
    else
      let pc := processCalls c env tc
        ⟨[], st.usedTools, st.executedAny, st.events⟩ st.response.toolCalls
      let subModel := if strTruthy modelName then modelName else none
      match c.submit pc.events st.response.rid pc.outputs subModel with
      | .error e =>
          ⟨⟨st.response, pc.executedAny, pc.usedTools,
            pc.events ++ [Event.submit st.response.rid pc.outputs subModel]⟩, some e⟩
      | .ok r2 =>
          let evs1 := pc.events ++ [Event.submit st.response.rid pc.outputs subModel]
          let w := wrapWait c evs1 r2
          toolLoop c env tc modelName fuel ⟨w.1, pc.executedAny, pc.usedTools, w.2⟩

/-- First `input_text` part of a message content, carrying the (possibly
`None`) text value. -/
def firstInputText : List Part → Option (Option String)
  | [] => none
  | p :: rest => if p.ptype == "input_text" then some p.text else firstInputText rest

/-- Scan for the last user message text (conversation.py lines 236-250):
messages in reverse order; each user message's first `input_text` part
overwrites the accumulator; stop at the first truthy value. -/
def lastUserTextGo : Option String → List Msg → Option String
  | acc, [] => acc
  | acc, m :: rest =>
      if m.role == "user" then
        match firstInputText m.content with
        | some v => if strTruthy v then v else lastUserTextGo v rest
        | none => lastUserTextGo acc rest
      else lastUserTextGo acc rest

/-- The `user_text` used by the fallback heuristics. -/
def lastUserText (input : List Msg) : Option String := lastUserTextGo none input.reverse

/-- The realtime-intent markers of the websearch fallback
(conversation.py line 256). -/
def realtimeMarkers : List String :=
  ["météo", "meteo", "weather", "forecast", "news", "actualité"]

/-- `any(t.get("function", {}).get("name") == "search_web" or
t.get("name") == "search_web" for t in tools)`. -/
def hasSearchTool (tools : List ToolSpec) : Bool :=
  tools.any (fun t => t.fname == some "search_web" || t.name == some "search_web")

/-- Python truthiness of `s and s.strip()` on an optional string. -/
def strStripTruthy : Option String → Bool
  | some s => !(pyTrim s).isEmpty
  | none => false

/-- Output of the fallback heuristics. -/
structure FbOut where
  outputText : Option String
  fallbackText : Option String
  usedTools : List UsedTool
  events : List Event
  deriving DecidableEq

/-- Heuristic realtime websearch (conversation.py lines 252-267): when a
search tool is configured, the user text is truthy and contains a
realtime marker, `search_web` is invoked directly with the verbatim user
text; a non-empty result becomes the output and fallback text and is
recorded with `direct: True`; an empty or raising call changes nothing
else. -/
def heuristicRealtime (c : Client) (tc : Option Args) (tools : List ToolSpec)
    (userText : Option String) (outputText : Option String)
    (usedTools : List UsedTool) (events : List Event) : FbOut :=
  let textL := pyLower (userText.getD "")
  if hasSearchTool tools && strTruthy userText &&
      realtimeMarkers.any (fun k => containsSub textL k) then
    let ut := userText.getD ""
    let qargs : Args := [("query", ut)]
    match c.execTool events "search_web" qargs tc with
    | .ok d =>
        if !(pyTrim d).isEmpty then
          ⟨some d, some d, usedTools ++ [⟨"search_web", some qargs, "classic", true⟩],
           events ++ [Event.exec "search_web" qargs]⟩
        else ⟨outputText, none, usedTools, events ++ [Event.exec "search_web" qargs]⟩
    | .error _ => ⟨outputText, none, usedTools, events ++ [Event.exec "search_web" qargs]⟩
  else ⟨outputText, none, usedTools, events⟩

/-- State threaded through the document-service heuristic block. -/
structure DocState where
  chunks : List String
  usedTools : List UsedTool
  events : List Event
  deriving DecidableEq

/-- The label rewriting of `set_fallback_and_note`. -/
def chunkLabel (nm : String) : String :=
  if nm == "list_shared_templates" then "shared_templates"
  else if nm == "list_templates_http" then "user_templates"
  else if nm == "list_images" then "user_images"
  else nm

/-- A tagged fallback context chunk. -/
def mkChunk (nm out : String) : String :=
  "<" ++ chunkLabel nm ++ ">\n" ++ out ++ "\n</" ++ chunkLabel nm ++ ">"

/-- One keyword-gated direct invocation of the document-service
heuristic: when `cond` holds the tool is invoked; a non-empty result is
recorded as a tagged chunk plus a `direct` used-tools entry; an empty
result changes nothing; a raising call aborts the whole heuristic block
(`Except.error`), keeping the used-tools entries appended so far (list
mutation survives the abort) but discarding the chunks. -/
def docStep (c : Client) (tc : Option Args) (cond : Bool) (nm : String)
    (args : Args) (st : DocState) : Except DocState DocState :=
  if cond then
    match c.execTool st.events nm args tc with
    | .ok out =>
        if !(pyTrim out).isEmpty then
          Except.ok ⟨st.chunks ++ [mkChunk nm out],
                     st.usedTools ++ [⟨nm, some args, "classic", true⟩],
                     st.events ++ [Event.exec nm args]⟩
        else Except.ok ⟨st.chunks, st.usedTools, st.events ++ [Event.exec nm args]⟩
    | .error _ => Except.error ⟨st.chunks, st.usedTools, st.events ++ [Event.exec nm args]⟩
  else Except.ok st

/-- The set of truthy tool names (conversation.py lines 271-276). -/
def availableNames (tools : List ToolSpec) : List String :=
  tools.filterMap (fun t =>
    match toolNameOpt t with
    | some n => if n.isEmpty then none else some n
    | none => none)

/-- The document-service tool names probed by the heuristic. -/
def docsvcToolNames : List String :=
  ["convert_word_to_pdf", "init_user", "list_images",
   "list_shared_templates", "list_templates_http"]

/-- Heuristic document-service direct invocations (conversation.py
lines 269-374): five keyword-gated calls run in order inside one `try`
block, so the first raising call aborts the rest of the block including
the final chunk merge.  The `found_url` regex search of the source is
dead code and not modelled; the filename regex of the convert step is
the oracle `PyEnv.findDocName`. -/
def docsvcSteps (env : PyEnv) (ut : String) (uid : Option String)
    (avail : List String) : List (Bool × String × Args) :=
  let lower := pyLower ut
  let uidArgs : Args := [("user_id", uid.getD "")]
  let condInit :=
    (containsSub lower "init" || containsSub lower "initialize" ||
     containsSub lower "initialiser" || containsSub lower "initialisé" ||
     containsSub lower "initialise") &&
    (containsSub lower "container" || containsSub lower "blob") &&
    strTruthy uid && avail.contains "init_user"
  let condImages :=
    (containsSub lower "list" || containsSub lower "lister" ||
     containsSub lower "voir" || containsSub lower "mes images" ||
     containsSub lower "images") &&
    (containsSub lower "image" || containsSub lower "images") &&
    !(containsSub lower "init" || containsSub lower "initialize" ||
      containsSub lower "initialiser") &&
    strTruthy uid && avail.contains "list_images"
  let condShared :=
    (containsSub lower "template" || containsSub lower "templates") &&
    (containsSub lower "partagé" || containsSub lower "partages" ||
     containsSub lower "shared") &&
    avail.contains "list_shared_templates"
  let condTmpl :=
    (containsSub lower "template" || containsSub lower "templates") &&
    (containsSub lower "mes" || containsSub lower "my") &&
    strTruthy uid && avail.contains "list_templates_http"
  let blobPath : Option String :=
    match env.findDocName ut with
    | some b =>
        if containsSub b "/" then some b
        else if strTruthy uid then some (uid.getD "" ++ "/" ++ b) else none
    | none => none
  let condConv :=
    (containsSub lower "convert" || containsSub lower "convertir") &&
    (containsSub lower "docx" || containsSub lower "doc") &&
    containsSub lower "pdf" &&
    avail.contains "convert_word_to_pdf" && blobPath.isSome
  [(condInit, "init_user", uidArgs),
   (condImages, "list_images", uidArgs),
   (condShared, "list_shared_templates", []),
   (condTmpl, "list_templates_http", uidArgs),
   (condConv, "convert_word_to_pdf", [("blob", blobPath.getD "")])]

/-- Heuristic document-service direct invocations, continued: the ordered
keyword-gated steps are folded over `docStep` inside one `try` block. -/
def heuristicDocsvc (c : Client) (env : PyEnv) (tc : Option Args)
    (tools : List ToolSpec) (userText : Option String)
    (internalUid : Option String) (fb : FbOut) : FbOut :=
  let avail := availableNames tools
  let hasDoc := docsvcToolNames.any (fun n => avail.contains n)
  if hasDoc && strTruthy userText then
    match (docsvcSteps env (userText.getD "") internalUid avail).foldlM
      (fun st (s : Bool × String × Args) => docStep c tc s.1 s.2.1 s.2.2 st)
      (⟨[], fb.usedTools, fb.events⟩ : DocState) with
    | .error st => ⟨fb.outputText, fb.fallbackText, st.usedTools, st.events⟩
    | .ok st =>
        if st.chunks.isEmpty then ⟨fb.outputText, fb.fallbackText, st.usedTools, st.events⟩
        else
          let combined := String.intercalate "\n\n" st.chunks
          let newFb :=
            if strStripTruthy fb.fallbackText then
              some ((fb.fallbackText.getD "") ++ "\n\n" ++ combined)
            else some combined
          ⟨fb.outputText, newFb, st.usedTools, st.events⟩
  else fb

/-- The post-loop fallback heuristics (conversation.py lines 231-376),
run only when post-synthesis is allowed and no tool was executed in the
loop. -/
def fallbackStage (c : Client) (env : PyEnv) (tc : Option Args)
    (args : RespArgs) (internalUid : Option String) (allowPost : Bool)
    (executedAny : Bool) (outputText : Option String)
    (usedTools : List UsedTool) (events : List Event) : FbOut :=
  if allowPost && !executedAny then
    let userText := lastUserText args.input
    let fb1 := heuristicRealtime c tc args.tools userText outputText usedTools events
    heuristicDocsvc c env tc args.tools userText internalUid fb1
  else ⟨outputText, none, usedTools, events⟩

/-- The `user_text` recomputed for the synthesis prompt
(conversation.py lines 385-396): last user message owning at least one
`input_text` part; the last such text (missing text keys read as ""). -/
def synthUserTextGo : List Msg → String
  | [] => ""
  | m :: rest =>
      if m.role == "user" then
        let ts := m.content.filterMap
          (fun p => if p.ptype == "input_text" then some (p.text.getD "") else none)
        match ts.getLast? with
        | some t => t
        | none => synthUserTextGo rest
      else synthUserTextGo rest

/-- Reverse-order scan wrapper for `synthUserTextGo`. -/
def synthUserText (input : List Msg) : String := synthUserTextGo input.reverse

/-- The summary prompt of the post-synthesis pass
(conversation.py lines 397-405). -/
def summaryPrompt (userText fallback : String) : String :=
  "You received tool results as tagged blocks in <context>. " ++
  "Return a compact answer enumerating concrete items, with no extra prose. " ++
  "If the block <shared_templates> exists, output a line: \x27Shared templates: name1, name2\x27. " ++
  "If the block <user_templates> exists, output a line: \x27My templates: name1, name2\x27. " ++
  "Extract names by parsing JSON when present (use the \x27name\x27 property if available); if plain text, list each line as-is. " ++
  "If a list is empty or missing, write \x27none\x27 after the label. Do not mention \x27context\x27 or sources.\n\n" ++
  "User question: " ++ userText ++ "\n\n<context>\n" ++ fallback ++ "\n</context>\n"

/-- Output of the post-synthesis pass. -/
structure SynthOut where
  outputText : Option String
  response : Response
  usedTools : List UsedTool
  events : List Event
  deriving DecidableEq

/-- The single-shot post-synthesis pass (conversation.py lines
377-445): when the fallback produced a non-empty context, issue one more
request whose input embeds the tagged context; use its output when
non-empty, otherwise retry once with the same tool-free arguments (the
source pops `tools`/`tool_choice`, which the synthesis args never
carry); all failures in this pass are caught. -/
def synthArgs (env : PyEnv) (args : RespArgs) (fb : FbOut) : RespArgs :=
  { model := args.model
    input := [⟨"system", [⟨"input_text", some env.systemMsg⟩]⟩,
              ⟨"user", [⟨"input_text",
                some (summaryPrompt (synthUserText args.input)
                  (fb.fallbackText.getD ""))⟩]⟩]
    tools := []
    xUserId := none }

/-- The single-shot post-synthesis pass proper (see `synthArgs`). -/
def postSynthesis (c : Client) (env : PyEnv) (args : RespArgs) (allowPost : Bool)
    (fb : FbOut) (response : Response) : SynthOut :=
  if allowPost && strStripTruthy fb.fallbackText then
    match c.create fb.events (synthArgs env args fb) with
    | .ok fr =>
        let evs1 := fb.events ++ [Event.create (synthArgs env args fb)]
        if strStripTruthy fr.outputText then
          let merged :=
            match fr.classicToolsUsed with
            | some l => fb.usedTools ++ l
            | none => fb.usedTools
          ⟨fr.outputText, fr, merged, evs1⟩
        else
          match c.create evs1 (synthArgs env args fb) with
          | .ok dr =>
              let evs2 := evs1 ++ [Event.create (synthArgs env args fb)]
              if strStripTruthy dr.outputText then ⟨dr.outputText, dr, fb.usedTools, evs2⟩
              else ⟨fb.outputText, response, fb.usedTools, evs2⟩
          | .error _ =>
              ⟨fb.outputText, response, fb.usedTools,
               evs1 ++ [Event.create (synthArgs env args fb)]⟩
    | .error _ =>
        ⟨fb.outputText, response, fb.usedTools,
         fb.events ++ [Event.create (synthArgs env args fb)]⟩
  else ⟨fb.outputText, response, fb.usedTools, fb.events⟩

/-- Result of `run_responses_with_tools`; `raisedMsg = some e` when the
function raised (the initial create or a tool-output submission
failed). -/
structure RunOut where
  outputText : Option String
  response : Response
  usedTools : List UsedTool
  events : List Event
  raisedMsg : Option String
  deriving DecidableEq

/-- A response handle with every attribute absent. -/
def emptyResponse : Response := ⟨none, none, [], none, none⟩

/-- Post-loop phase of `run_responses_with_tools` (conversation.py
lines 227-451): a raised submission propagates; otherwise the fallback
heuristics and the post-synthesis pass run. -/
def runAfterLoop (c : Client) (env : PyEnv) (tc : Option Args) (args : RespArgs)
    (allowPost : Bool) (internalUid : Option String) (lo : LoopOut) : RunOut :=
  match lo.raisedMsg with
  | some e => ⟨none, emptyResponse, lo.st.usedTools, lo.st.events, some e⟩
  | none =>
      let fb := fallbackStage c env tc args internalUid allowPost
        lo.st.executedAny lo.st.response.outputText lo.st.usedTools lo.st.events
      let so := postSynthesis c env args allowPost fb lo.st.response
      ⟨so.outputText, so.response, so.usedTools, so.events, none⟩

/-- The phase of `run_responses_with_tools` following the initial
(uncaught) `client.responses.create` (conversation.py lines 152-451). -/
def runAfterCreate (c : Client) (env : PyEnv) (tc : Option Args)
    (modelName : Option String) (args : RespArgs) (allowPost : Bool)
    (internalUid : Option String) : Except String Response → RunOut
  | .error e => ⟨none, emptyResponse, [], [Event.create args], some e⟩
  | .ok r0 =>
      let w := wrapWait c [Event.create args] r0
      runAfterLoop c env tc args allowPost internalUid
        (toolLoop c env tc modelName 6 ⟨w.1, false, [], w.2⟩)

/-- The model fix-up of conversation.py lines 131-138: with tools
present and no model set, substitute `AZURE_OPENAI_MODEL_TOOLS` when it
is set. -/
def modelFixedArgs (env : PyEnv) (args0 : RespArgs) : RespArgs :=
  if !args0.tools.isEmpty && !strTruthy args0.model then
    { args0 with model := match env.orchestratorModelTools with
                          | some v => some v
                          | none => args0.model }
  else args0

/-- The internal user id extracted (and stripped) from the
`x_user_id` key before it is removed from the request arguments
(conversation.py lines 139-146). -/
def internalUidOf (env : PyEnv) (args0 : RespArgs) : Option String :=
  match (modelFixedArgs env args0).xUserId with
  | some s => if (pyTrim s).isEmpty then none else some (pyTrim s)
  | none => none

/-- The request arguments actually submitted: model fixed up, the
`x_user_id` key removed. -/
def preparedArgs (env : PyEnv) (args0 : RespArgs) : RespArgs :=
  { modelFixedArgs env args0 with xUserId := none }

/-- The tool context enriched with the internal user id
(conversation.py lines 147-150). -/
def toolCtxOf (env : PyEnv) (args0 : RespArgs) (toolContext : Option Args) :
    Option Args :=
  match internalUidOf env args0 with
  | some u =>
      match toolContext with
      | none => some [("user_id", u)]
      | some l => if (l.lookup "user_id").isSome then some l
                  else some (l ++ [("user_id", u)])
  | none => toolContext

/-- Embedding of `run_responses_with_tools` (conversation.py lines
119-451).  The initial `client.responses.create` and each
`submit_tool_outputs` call are outside any `try`, so their failures
surface as `raisedMsg`; every other external failure is caught inside.
The `setattr(response, "_classic_tools_used", used_tools)` of the
source is modelled by the separate `usedTools` result field. -/
def run_responses_with_tools (c : Client) (env : PyEnv) (args0 : RespArgs)
    (allowPost : Bool) (toolContext : Option Args) : RunOut :=
  runAfterCreate c env (toolCtxOf env args0 toolContext)
    (preparedArgs env args0).model (preparedArgs env args0) allowPost
    (internalUidOf env args0) (c.create [] (preparedArgs env args0))

/-- `str(x)` as used in `f"Error: {output_text}"` on an optional
string. -/
def pyReprOfOpt : Option String → String
  | some s => s
  | none => "None"

/-- A chat-completions tool call (`tc.id`, `tc.function.name`,
`tc.function.arguments`). -/
structure ChatToolCall where
  tcid : String
  fname : String
  fargs : Option String
  deriving DecidableEq

/-- A chat-completions response message (`choices[0].message`). -/
structure ChatResp where
  content : Option String
  toolCalls : List ChatToolCall
  deriving DecidableEq

/-- A chat-completions input message: a plain role/content pair, the
assistant message carrying tool calls echoed back, or a tool-result
message. -/
inductive ChatMsg where
  | plain (role content : String)
  | assistantCall (resp : ChatResp)
  | toolResult (tcid content : String)
  deriving DecidableEq

/-- Arguments of a `chat.completions.create` call. -/
structure ChatArgs where
  model : Option String
  messages : List ChatMsg
  tools : List ToolSpec
  toolChoice : Option String
  deriving DecidableEq

/-- A stored conversation-memory message. -/
structure MemMsg where
  role : Option String
  content : Option String
  deriving DecidableEq

/-- Trace events of a worker invocation. -/
inductive WEvent where
  | wClientCreate
  | wResolveMcp
  | wChat (args : ChatArgs)
  | wRunTools
  | wMemFetch
  | wExec (nm : String) (args : Args)
  | wWrite (r : JobRec)
  deriving DecidableEq

/-- Oracles of the worker: the LLM client factory, chat completions, the
tool executor, the conversation memory, plus the Responses-API client
and Python oracles used by the nested `run_responses_with_tools`.
`now` abstracts `time.strftime(...)` (its value is never examined). -/
structure WorkerEnv where
  py : PyEnv
  respClient : Client
  createClient : List WEvent → Except String Unit
  chatCreate : List WEvent → ChatArgs → Except String ChatResp
  execToolW : List WEvent → String → Args → Option Args → Except String String
  memPrior : List WEvent → String → String → Nat → Except String (List MemMsg)
  now : String

/-- The queue-message request body, restricted to the keys the worker
reads (`none`/`pnone` = key absent). -/
structure Body where
  prompt : Option String
  user_id : Option String
  conversation_id : Option String
  reasoning_effort : Option String
  mode : Option String
  selected_model : Option String
  model : Option String
  allowed_tools : PyVal
  mcp_tool_cfg : Option ToolSpec
  mcp_url : Option String

/-- A decoded queue message `{job_id, body, type}` (a message whose
body fails to decode raises before any state is touched and is not
modelled). -/
structure WPayload where
  job_id : Option String
  body : Body
  ptype : Option String

/-- The `search_web` classic tool definition
(src/app/services/tools.py, lines 112-141), restricted to the keys the
modelled code reads. -/
def searchWebToolDef : ToolSpec := ⟨some "function", some "search_web", none⟩

/-- The document-service classic tool definitions
(src/app/services/tools.py, lines 409-473). -/
def docsvcToolDefs : List ToolSpec :=
  [⟨some "function", some "convert_word_to_pdf", none⟩,
   ⟨some "function", some "init_user", none⟩,
   ⟨some "function", some "list_images", none⟩,
   ⟨some "function", some "list_shared_templates", none⟩,
   ⟨some "function", some "list_templates_http", none⟩]

/-- `get_builtin_tools_config` (src/app/services/tools.py, lines
144-148): always `search_web` plus the document-service tools. -/
def get_builtin_tools_config : List ToolSpec := searchWebToolDef :: docsvcToolDefs

/-- Embedding of `resolve_mcp_config` (src/app/services/tools.py, lines
31-101) at the granularity the worker observes: either `None`, an MCP
tool config (its payload keys `server_label`, `server_url`, `headers`,
`require_approval`, `allowed_tools` are carried opaquely and never read
by the modelled code), or a raised `ValueError`.  Note the source's
`allow_override = "false"` is a truthy string, so a request-supplied
`mcp_url` does take the override branch. -/
def resolve_mcp_config (env : PyEnv) (body : Body) : Except String (Option ToolSpec) :=
  let serverUrl := if strTruthy body.mcp_url then body.mcp_url else env.toolsSseUrl
  if !strTruthy serverUrl then
    if !listTruthy (normalize_allowed_tools env body.allowed_tools) then Except.ok none
    else Except.error "Missing MCP SSE URL. Configure TOOLS_SSE_URL."
  else
    match body.allowed_tools with
    | .plist [] => Except.ok none
    | _ => Except.ok (some ⟨some "mcp", none, none⟩)

/-- Embedding of `build_responses_args` (conversation.py lines 53-88):
system message then user prompt; the MCP config (when any) followed by
the built-in tools; the inert `reasoning`/`text`/`store`/`tool_choice`
keys are not modelled. -/
def build_responses_args (env : PyEnv) (model : Option String) (prompt : String)
    (mcpToolCfg : Option ToolSpec) : RespArgs :=
  { model := model
    input := [⟨"system", [⟨"input_text", some env.systemMsg⟩]⟩,
              ⟨"user", [⟨"input_text", some prompt⟩]⟩]
    tools := (match mcpToolCfg with | some t => [t] | none => []) ++ get_builtin_tools_config
    xUserId := none }

/-- Worker state: the job-record blob, the chronological list of stored
records (what a poller can observe), and the event trace. -/
structure WSt where
  store : Option JobRec
  writes : List JobRec
  events : List WEvent
  deriving DecidableEq

/-- One `_update_job_status` call performed by the worker. -/
def wWriteStatus (env : WorkerEnv) (st : WSt) (status : String) (progress : Int)
    (message : String) (tool partialText finalText : String)
    (created_at selected_model mode : Option String)
    (used_tools : Option (List String)) : WSt :=
  let r := updateJobStatus st.store env.now status progress message tool
    partialText finalText created_at selected_model mode used_tools
  ⟨some r, st.writes ++ [r], st.events ++ [WEvent.wWrite r]⟩

/-- Conversion of Responses-format input to chat messages
(mcp_worker.py lines 263-268 and duplicates): join the `input_text`
parts with spaces, dropping messages whose text is blank. -/
def chatMsgsOfInput (input : List Msg) : List ChatMsg :=
  input.filterMap (fun m =>
    let txt := String.intercalate " " (m.content.filterMap
      (fun p => if p.ptype == "input_text" then some (p.text.getD "") else none))
    if (pyTrim txt).isEmpty then none else some (ChatMsg.plain m.role txt))

/-- The conversation-history injection (mcp_worker.py lines 222-247):
up to the last three prior turns become alternating messages between
the system message(s) and the current user message(s); memory-fetch
failures are swallowed. -/
def injectHistory (env : WorkerEnv) (st : WSt) (userId : String)
    (conversationId : Option String) (args : RespArgs) : WSt × RespArgs :=
  match conversationId with
  | some cid =>
      if !userId.isEmpty then
        let st1 : WSt := ⟨st.store, st.writes, st.events ++ [WEvent.wMemFetch]⟩
        match env.memPrior st.events userId cid 6 with
        | .error _ => (st1, args)
        | .ok prior =>
            if prior.isEmpty then (st1, args)
            else
              let msgs := (prior.drop (prior.length - 3)).filterMap (fun m =>
                let role := pyTrim ((pyOrStr m.role (some "user")).getD "user")
                let content := pyTrim (m.content.getD "")
                if content.isEmpty then none
                else if role == "assistant" then
                  some (⟨"assistant", [⟨"output_text", some content⟩]⟩ : Msg)
                else some (⟨"user", [⟨"input_text", some content⟩]⟩ : Msg))
              let newInput :=
                (args.input.filter (fun m => m.role == "system")) ++ msgs ++
                (args.input.filter (fun m => m.role == "user"))
              (st1, { args with input := newInput })
      else (st, args)
  | none => (st, args)

/-- Accumulator of the per-tool-call loop of the classic branch. -/
structure ToolsFoldAcc where
  st : WSt
  toolMsgs : List ChatMsg
  toolsUsed : List String
  deriving DecidableEq

/-- One iteration of the classic branch's tool-call loop
(mcp_worker.py lines 304-330): parse the arguments (failures degrade to
`{}`), execute the tool (a raise propagates to the worker's top-level
handler), record the name, write a `running/50` progress update with a
tool-specific message, and stash the tool-result message. -/
def toolCallStep (env : WorkerEnv) (tc0 : Option Args) (created_at : Option String)
    (acc : ToolsFoldAcc) (tcall : ChatToolCall) : Except (String × WSt) ToolsFoldAcc :=
  let args := if strTruthy tcall.fargs
    then (env.py.jsonLoadsObj (tcall.fargs.getD "")).getD [] else []
  match env.execToolW acc.st.events tcall.fname args tc0 with
  | .error e =>
      Except.error (e, ⟨acc.st.store, acc.st.writes,
        acc.st.events ++ [WEvent.wExec tcall.fname args]⟩)
  | .ok result =>
      let st1 : WSt := ⟨acc.st.store, acc.st.writes,
        acc.st.events ++ [WEvent.wExec tcall.fname args]⟩
      let msgTxt := if pyLower tcall.fname == "search_web"
        then "Web search in progress..." else "Using tool: " ++ tcall.fname
      let st2 := wWriteStatus env st1 "running" 50 msgTxt tcall.fname "" ""
        created_at none none none
      Except.ok ⟨st2, acc.toolMsgs ++ [ChatMsg.toolResult tcall.tcid result],
        acc.toolsUsed ++ [tcall.fname]⟩

/-- Tail of the classic branch (mcp_worker.py lines 369-381): a blank
output triggers one tool-free retry whose failure is swallowed, then
the `running/90` write. -/
def workerClassicFinish (env : WorkerEnv) (st : WSt) (messages : List ChatMsg)
    (model : Option String) (created_at : Option String) (output : Option String)
    (toolsUsed : List String) :
    Except (String × WSt) (WSt × Option String × List String) :=
  let retryArgs : ChatArgs := ⟨model, messages, [], none⟩
  let p : WSt × Option String :=
    if !strTruthy output then
      match env.chatCreate st.events retryArgs with
      | .ok r =>
          (⟨st.store, st.writes, st.events ++ [WEvent.wChat retryArgs]⟩,
           some (r.content.getD ""))
      | .error _ =>
          (⟨st.store, st.writes, st.events ++ [WEvent.wChat retryArgs]⟩, output)
    else (st, output)
  let st2 := wWriteStatus env p.1 "running" 90 "Finalizing response..." "" "" ""
    created_at none none none
  Except.ok (st2, p.2, toolsUsed)

/-- The classic tools of the request (`type == "function"`). -/
def classicTools (args : RespArgs) : List ToolSpec :=
  args.tools.filter (fun t => t.ttype == some "function")

/-- The chat messages of the classic branch, with the `user_id` system
message appended when a tool needing it is present (mcp_worker.py lines
262-274). -/
def classicMessages (args : RespArgs) (userId : String) : List ChatMsg :=
  chatMsgsOfInput args.input ++
  (if !userId.isEmpty && ((classicTools args).map (fun t => t.name.getD "")).any
      (fun n => ["list_images", "init_user", "list_templates_http"].contains n) then
    [ChatMsg.plain "system" ("user_id=" ++ userId)] else [])

/-- The format-fixing loop over the classic tool dicts (mcp_worker.py
lines 276-284). -/
def classicToolsFixed (args : RespArgs) : List ToolSpec :=
  (classicTools args).map (fun t =>
    if t.ttype == some "function" && t.fname.isNone then
      ⟨t.ttype, t.name, t.name⟩ else t)

/-- The first chat-completions call of the classic branch. -/
def classicChatArgs (args : RespArgs) (model : Option String) (userId : String) :
    ChatArgs :=
  ⟨model, classicMessages args userId, classicToolsFixed args, some "auto"⟩

/-- The tool context of the classic branch. -/
def classicTc (userId : String) : Option Args :=
  if !userId.isEmpty then some [("user_id", userId)] else none

/-- The tool-execution sub-block of the classic branch (mcp_worker.py
lines 301-338): execute every requested call (each with a `running/50`
write), then one follow-up chat call with all tool results, then the
branch tail. -/
def workerToolLoopBlock (env : WorkerEnv) (tc0 : Option Args) (ca : Option String)
    (model : Option String) (messages : List ChatMsg) (resp : ChatResp)
    (st : WSt) : Except (String × WSt) (WSt × Option String × List String) :=
  match resp.toolCalls.foldlM (toolCallStep env tc0 ca) (⟨st, [], []⟩ : ToolsFoldAcc) with
  | .error p => Except.error p
  | .ok acc =>
      let fargs : ChatArgs :=
        ⟨model, messages ++ [ChatMsg.assistantCall resp] ++ acc.toolMsgs, [], none⟩
      match env.chatCreate acc.st.events fargs with
      | .error e =>
          Except.error (e, ⟨acc.st.store, acc.st.writes,
            acc.st.events ++ [WEvent.wChat fargs]⟩)
      | .ok follow =>
          workerClassicFinish env
            ⟨acc.st.store, acc.st.writes, acc.st.events ++ [WEvent.wChat fargs]⟩
            messages model ca (some (follow.content.getD "")) acc.toolsUsed

/-- The classic-tools branch (mcp_worker.py lines 252-381), from the
`running/20` write to the `running/90` write.  Returns the produced
output text and the tool names used. -/
def workerBranchClassic (env : WorkerEnv) (st : WSt) (args : RespArgs)
    (model : Option String) (userId : String) (created_at : Option String) :
    Except (String × WSt) (WSt × Option String × List String) :=
  let st := wWriteStatus env st "running" 20 "I\x27m thinking ..." "" "" ""
    created_at none none none
  if !(classicTools args).isEmpty then
    match env.chatCreate st.events (classicChatArgs args model userId) with
    | .error e =>
        Except.error (e, ⟨st.store, st.writes,
          st.events ++ [WEvent.wChat (classicChatArgs args model userId)]⟩)
    | .ok resp =>
        let st2 : WSt := ⟨st.store, st.writes,
          st.events ++ [WEvent.wChat (classicChatArgs args model userId)]⟩
        if !resp.toolCalls.isEmpty then
          workerToolLoopBlock env (classicTc userId) created_at model
            (classicMessages args userId) resp st2
        else
          workerClassicFinish env st2 (classicMessages args userId) model created_at
            (some (resp.content.getD "")) []
  else
    let cargs : ChatArgs := ⟨model, chatMsgsOfInput args.input, [], none⟩
    match env.chatCreate st.events cargs with
    | .error e =>
        Except.error (e, ⟨st.store, st.writes, st.events ++ [WEvent.wChat cargs]⟩)
    | .ok resp =>
        workerClassicFinish env
          ⟨st.store, st.writes, st.events ++ [WEvent.wChat cargs]⟩
          (chatMsgsOfInput args.input) model created_at
          (some (resp.content.getD "")) []

/-- The MCP-tools branch (mcp_worker.py lines 382-404): the `running/20`
write, the nested `run_responses_with_tools` call (note the source
passes `tool_context` positionally into the `allow_post_synthesis`
parameter, so post-synthesis is enabled exactly when a user id is
present and the inner tool context stays `None`), used-tool extraction,
and the `running/90` write. -/
def workerBranchMcp (env : WorkerEnv) (st : WSt) (args : RespArgs)
    (userId : String) (created_at : Option String) :
    Except (String × WSt) (WSt × Option String × List String) :=
  let st := wWriteStatus env st "running" 20 "I\x27m thinking ..." "" "" ""
    created_at none none none
  let st := (⟨st.store, st.writes, st.events ++ [WEvent.wRunTools]⟩ : WSt)
  let ro := run_responses_with_tools env.respClient env.py args (!userId.isEmpty) none
  match ro.raisedMsg with
  | some e => Except.error (e, st)
  | none =>
      let toolsUsed := ro.usedTools.foldl
        (fun acc ti => if acc.contains ti.uname then acc else acc ++ [ti.uname]) []
      let st2 := wWriteStatus env st "running" 90 "Finalizing response..." "" "" ""
        created_at none none none
      Except.ok (st2, ro.outputText, toolsUsed)

/-- The no-tools branch (mcp_worker.py lines 405-431): a `running/15`
write whose message depends on the reasoning heuristic, a single chat
completion whose failure is caught locally and turned into an
`"Error: ..."` output (skipping the `running/90` write). -/
def workerBranchPlain (env : WorkerEnv) (st : WSt) (args : RespArgs)
    (model : Option String) (isReasoning : Bool) (created_at : Option String) :
    Except (String × WSt) (WSt × Option String × List String) :=
  let st := wWriteStatus env st "running" 15
    (if isReasoning then "Deep analysis in progress..." else "Generating response...")
    "" "" "" created_at none none none
  let cargs : ChatArgs := ⟨model, chatMsgsOfInput args.input, [], none⟩
  match env.chatCreate st.events cargs with
  | .ok r =>
      let st1 : WSt := ⟨st.store, st.writes, st.events ++ [WEvent.wChat cargs]⟩
      let st2 := wWriteStatus env st1 "running" 90 "Finalizing response..." "" "" ""
        created_at none none none
      Except.ok (st2, some (r.content.getD ""), [])
  | .error e =>
      Except.ok
        (⟨st.store, st.writes, st.events ++ [WEvent.wChat cargs]⟩,
         some ("Error: " ++ e), [])

/-- The keywords of the reasoning-task heuristic (mcp_worker.py lines
216-219). -/
def reasoningKeywords : List String :=
  ["analyser", "expliquer", "pourquoi", "comment", "stratégie", "plan",
   "réfléchir", "détaillé"]

/-- The job-type-specific preparation (mcp_worker.py lines 139-181):
resolve the model, reasoning effort and MCP config, build the request
arguments, and perform the first job-record write (`running/10`,
message "Thinking...", carrying the selected model and mode). -/
def workerPrepare (env : WorkerEnv) (body : Body) (jtype : String) (st : WSt)
    (prompt : String) (created_at : Option String) :
    Except (String × WSt) (WSt × RespArgs × Option String × String) :=
  if jtype == "orchestrate" then
    let model := env.py.azureOpenAiModel
    let re := (pyOrStr body.reasoning_effort (some "low")).getD "low"
    let mode := body.mode.getD "standard"
    let args := build_responses_args env.py model prompt body.mcp_tool_cfg
    let st1 := wWriteStatus env st "running" 10 "Thinking..." "" "" ""
      created_at model (some mode) none
    Except.ok (st1, args, model, re)
  else if jtype == "ask" then
    let model := body.selected_model
    let re := (pyOrStr body.reasoning_effort (some "low")).getD "low"
    match resolve_mcp_config env.py body with
    | .error e =>
        Except.error (e, ⟨st.store, st.writes, st.events ++ [WEvent.wResolveMcp]⟩)
    | .ok mcpCfg =>
        let st0 : WSt := ⟨st.store, st.writes, st.events ++ [WEvent.wResolveMcp]⟩
        let args := build_responses_args env.py model prompt mcpCfg
        let st1 := wWriteStatus env st0 "running" 10 "Thinking..." "" "" ""
          created_at model (some "ask") none
        Except.ok (st1, args, model, re)
  else
    let model := pyOrStr body.model env.py.azureOpenAiModel
    let re := pyLower ((pyOrStr body.reasoning_effort (some "low")).getD "low")
    match resolve_mcp_config env.py body with
    | .error e =>
        Except.error (e, ⟨st.store, st.writes, st.events ++ [WEvent.wResolveMcp]⟩)
    | .ok mcpCfg =>
        let st0 : WSt := ⟨st.store, st.writes, st.events ++ [WEvent.wResolveMcp]⟩
        let args := build_responses_args env.py model prompt mcpCfg
        let st1 := wWriteStatus env st0 "running" 10 "Thinking..." "" "" ""
          created_at model (some "mcp") none
        Except.ok (st1, args, model, re)

/-- The allow-list filtering applied to the built request arguments
(mcp_worker.py lines 183-207).  The conversation-turn save of lines
449-453 touches only the external memory store and is not modelled. -/
def filteredArgs (envp : PyEnv) (body : Body) (args0 : RespArgs) : RespArgs :=
  { args0 with
    tools := applyAllowedFilter (normalize_allowed_tools envp body.allowed_tools)
      args0.tools }

/-- The three-way branch on tool availability (mcp_worker.py lines
209-213 and 252/382/405). -/
def workerSelectBranch (env : WorkerEnv) (args : RespArgs) (model : Option String)
    (userId : String) (isReasoning : Bool) (created_at : Option String) (st : WSt) :
    Except (String × WSt) (WSt × Option String × List String) :=
  if args.tools.any (fun t => t.ttype == some "function") then
    workerBranchClassic env st args model userId created_at
  else if !args.tools.isEmpty then
    workerBranchMcp env st args userId created_at
  else workerBranchPlain env st args model isReasoning created_at

/-- The phase of the worker body following the `running/10` write:
allow-list filtering, the reasoning heuristic, history injection, the
selected branch, and the terminal write. -/
def workerAfterPrep (env : WorkerEnv) (body : Body) (prompt userId : String)
    (conversationId : Option String) (created_at : Option String) (st : WSt)
    (args0 : RespArgs) (model : Option String) (re : String) :
    Except (String × WSt) WSt :=
  let args1 := filteredArgs env.py body args0
  let isReasoning := re == "medium" || re == "high" ||
    reasoningKeywords.any (fun k => containsSub (pyLower prompt) k)
  let hi := injectHistory env st userId conversationId args1
  match workerSelectBranch env hi.2 model userId isReasoning created_at hi.1 with
  | .error p => Except.error p
  | .ok (st2, output, toolsUsed) =>
  let finalStatus := if strTruthy output && !(pyStartsWith (output.getD "") "Error:")
    then "completed" else "failed"
  let finalMessage := if finalStatus == "completed" then "Completed"
    else "Error: " ++ pyReprOfOpt output
  let finalTool := String.intercalate ", " toolsUsed
  Except.ok (wWriteStatus env st2 finalStatus 100 finalMessage finalTool ""
    ((pyOrStr output (some "")).getD "") created_at none none (some toolsUsed))

/-- The body of `mcp_process_worker` once a job id is known: parameter
extraction, client creation, per-type preparation (`workerPrepare`),
then `workerAfterPrep`. -/
def workerBody (env : WorkerEnv) (body : Body) (jtype : String) (st : WSt) :
    Except (String × WSt) WSt :=
  let created_at := st.store.bind (fun r => r.createdAt)
  let prompt := (pyOrStr body.prompt (some "")).getD ""
  let userId := pyTrim ((pyOrStr body.user_id (some "")).getD "")
  let convRaw := pyTrim ((pyOrStr body.conversation_id (some "")).getD "")
  let conversationId := if convRaw.isEmpty then none
    else if pyLower convRaw == "init" then none else some convRaw
  match env.createClient st.events with
  | .error e =>
      Except.error (e, ⟨st.store, st.writes, st.events ++ [WEvent.wClientCreate]⟩)
  | .ok _ =>
  let st := (⟨st.store, st.writes, st.events ++ [WEvent.wClientCreate]⟩ : WSt)
  match workerPrepare env body jtype st prompt created_at with
  | .error p => Except.error p
  | .ok (st, args0, model, re) =>
      workerAfterPrep env body prompt userId conversationId created_at st args0 model re

/-- Embedding of `mcp_process_worker` (mcp_worker.py lines 100-465): a
missing or falsy `job_id` returns without touching state; any exception
escaping the body is caught, recorded as a terminal `failed/100` write
(without an explicit `created_at`), and re-raised -- the second result
component carries the re-raised message. -/
def mcp_process_worker (env : WorkerEnv) (p : WPayload) (store0 : Option JobRec) :
    WSt × Option String :=
  let st0 : WSt := ⟨store0, [], []⟩
  if !strTruthy p.job_id then (st0, none)
  else
    match workerBody env p.body (p.ptype.getD "mcp") st0 with
    | .ok st => (st, none)
    | .error (e, st) =>
        (wWriteStatus env st "failed" 100 ("Error: " ++ e) "" "" ""
          none none none none, some e)

/-- A concrete oracle environment whose `json.loads` and regex oracles
always fail and with no environment variables set. -/
def envW : PyEnv :=
  ⟨fun _ => none, fun _ => none, fun _ => none, none, none, none, none, "sys"⟩

/-- `strTruthy` of an absent value is falsy. -/
theorem strTruthy_none : strTruthy none = false := rfl

/-- A helper: a filter whose predicate is constantly false yields `[]`. -/
theorem filter_false_nil {α : Type} (l : List α) (p : α → Bool)
    (h : ∀ t, p t = false) : l.filter p = [] := by
  induction l with
  | nil => rfl
  | cons a t ih => simp [List.filter_cons, h a, ih]

/-! ## Claim C7 -- Mode Router trivial route -/

/-- C7 counterexample: the prompt `"why"` is shorter than 160
characters, no tools and no reasoning preference are supplied, yet
`_route_mode` returns `"deep"` (the prompt contains the deep-reasoning
marker `"why"`), not `"trivial"` as the claim states. -/
theorem c7_counterexample :
    route_mode "why" false ⟨none, none, none⟩ none = "deep" ∧
    "why".length < 160 := by decide

/-- C7 (amended): for every prompt shorter than 160 characters that
contains no deep-reasoning marker phrase, with no tools available (or
no allow-list supplied) and no reasoning preference set in the
constraints, the Mode Router returns `"trivial"`. -/
theorem c7_trivial_route (prompt : String) (has_tools : Bool) (cs : Constraints)
    (allowed : Option (List String))
    (hlen : prompt.length < 160)
    (hmark : deepMarkers.any (fun m => containsSub (pyLower prompt) m) = false)
    (hp1 : yesValues.contains (pyLower (cs.preferReasoning.getD "")) = false)
    (hp2 : yesValues.contains (pyLower (cs.prefer_reasoning.getD "")) = false)
    (htools : has_tools = false ∨ listTruthy allowed = false) :
    route_mode prompt has_tools cs allowed = "trivial" := by
  have hnt : (has_tools && listTruthy allowed) = false := by
    rcases htools with h | h <;> simp [h]
  have h800 : decide (prompt.length > 800) = false := by
    simp; omega
  simp only [route_mode, hnt, hp1, hp2, hmark, h800, Bool.false_or, Bool.or_false,
    Bool.or_self, Bool.false_eq_true, if_false]
  simp [hlen]

/-- C7 witness: a concrete short, marker-free prompt routes to
`"trivial"`. -/
theorem c7_trivial_route_witness :
    route_mode "hello there" false ⟨none, none, none⟩ none = "trivial" :=
  c7_trivial_route "hello there" false ⟨none, none, none⟩ none
    (by decide) (by decide) (by decide) (by decide) (Or.inl rfl)

/-! ## Claim C10 -- normalize_allowed_tools -/

/-- C10: `normalize_allowed_tools` is total (the embedding returns
`none` on every path where the Python catches), splits comma-separated
strings (plain or as the sole element of a singleton list) into trimmed
non-empty names, parses bracket-shaped strings through `json.loads`
(returning the elements as strings, or `none` when the parse fails),
and returns `none` on empty strings and non-list non-string inputs. -/
theorem c10_normalize (env : PyEnv) (s : String) (n : Int) :
    ((pyStartsWith (pyTrim s) "[" && pyEndsWith (pyTrim s) "]") = false →
      containsSub (pyTrim s) "," = true →
      normalize_allowed_tools env (.pstr s) = some (splitCommaTrim (pyTrim s)))
    ∧ ((pyStartsWith (pyTrim s) "[" && pyEndsWith (pyTrim s) "]") = false →
      containsSub (pyTrim s) "," = true →
      normalize_allowed_tools env (.plist [.pstr s]) = some (splitCommaTrim (pyTrim s)))
    ∧ ((pyStartsWith (pyTrim s) "[" && pyEndsWith (pyTrim s) "]") = true →
      normalize_allowed_tools env (.pstr s) =
        (env.jsonLoadsArr (pyTrim s)).map (fun parsed => parsed.filterMap pyStrOfPrim))
    ∧ normalize_allowed_tools env (.pstr "") = none
    ∧ normalize_allowed_tools env .pnone = none
    ∧ normalize_allowed_tools env .pdict = none
    ∧ normalize_allowed_tools env (.pint n) = none := by
  refine ⟨?_, ?_, ?_, rfl, rfl, rfl, rfl⟩
  · intro hb hc
    simp [normalize_allowed_tools, hb, hc]
  · intro hb hc
    simp [normalize_allowed_tools, hb, hc]
  · intro hb
    simp only [normalize_allowed_tools, hb, if_true]
    cases env.jsonLoadsArr (pyTrim s) <;> simp

/-- C10 witness: the comma branch on a concrete environment and
string. -/
theorem c10_normalize_witness :
    normalize_allowed_tools envW (.pstr "a, b") = some ["a", "b"] := by
  have h := (c10_normalize envW "a, b" 0).1 (by decide) (by decide)
  rw [h]; decide

/-! ## Claim C6 -- allow-list filtering -/

/-- C6: allow-list filtering of the Job Worker: an explicit empty list
removes every tool (in particular every classic tool); a list
containing `"*"` retains everything; any other list retains exactly the
tools whose name is listed; and no tool named `search_web` survives
unless the list mentions it or `"*"`. -/
theorem c6_allowlist (env : PyEnv) (tools : List ToolSpec) (l : List String) :
    applyAllowedFilter (some []) tools = []
    ∧ normalize_allowed_tools env (.plist []) = some []
    ∧ (l.contains "*" = true → applyAllowedFilter (some l) tools = tools)
    ∧ (l.contains "*" = false →
        applyAllowedFilter (some l) tools =
          tools.filter (fun t =>
            match toolNameOpt t with
            | some nm => l.contains nm
            | none => false))
    ∧ (∀ normalized : Option (List String),
        (normalized = none ∨ ∃ l2, normalized = some l2 ∧
          l2.contains "*" = false ∧ l2.contains "search_web" = false) →
        ∀ t ∈ applyAllowedFilter normalized tools,
          ¬ toolNameOpt t = some "search_web") := by
  refine ⟨?_, rfl, ?_, ?_, ?_⟩
  · simp only [applyAllowedFilter, List.isEmpty_nil, Bool.not_true, Bool.false_and,
      Bool.not_false, if_true]
    apply filter_false_nil
    intro t
    cases toolNameOpt t <;> simp
  · intro h
    have hmem : "*" ∈ l := by simpa using h
    have hne : l ≠ [] := by
      rintro rfl
      simp at hmem
    simp [applyAllowedFilter, hmem, hne]
  · intro h
    have hnm : "*" ∉ l := by simpa using h
    by_cases hsw : "search_web" ∈ l
    · have hne : l ≠ [] := by
        rintro rfl
        simp at hsw
      simp [applyAllowedFilter, hnm, hsw, hne]
    · have hc2 : l.contains "search_web" = false := by simpa using hsw
      simp only [applyAllowedFilter, h, hc2, Bool.or_self, Bool.and_false,
        Bool.not_false, Bool.not_true, if_true]
      rw [List.filter_filter]
      apply List.filter_congr
      intro t _
      cases hn : toolNameOpt t with
      | none => simp [hn]
      | some nm =>
          by_cases hcn : nm = "search_web"
          · subst hcn
            simp [hn, hc2, hsw]
          · simp [hn, hcn]
  · intro normalized hcase t ht
    have key : ∀ t2 ∈ tools.filter
        (fun t3 => !(toolNameOpt t3 == some "search_web")),
        ¬ toolNameOpt t2 = some "search_web" := by
      intro t2 ht2 heq
      have := (List.mem_filter.mp ht2).2
      rw [heq] at this
      simp at this
    rcases hcase with h | ⟨l2, hl2, hstar, hsw⟩
    · subst h
      simp only [applyAllowedFilter, Bool.not_false, if_true] at ht
      exact key t ht
    · subst hl2
      simp only [applyAllowedFilter, hstar, hsw, Bool.or_self, Bool.and_false,
        Bool.not_false, Bool.not_true, if_true] at ht
      have ht' : t ∈ tools.filter
          (fun t3 => !(toolNameOpt t3 == some "search_web")) :=
        (List.mem_filter.mp ht).1
      exact key t ht'

/-- C6 witness: concrete filterings of the built-in tool catalog. -/
theorem c6_allowlist_witness :
    applyAllowedFilter (some []) get_builtin_tools_config = [] ∧
    applyAllowedFilter (some ["*", "foo"]) get_builtin_tools_config =
      get_builtin_tools_config ∧
    applyAllowedFilter (some ["search_web"]) get_builtin_tools_config =
      [searchWebToolDef] := by
  refine ⟨(c6_allowlist envW get_builtin_tools_config []).1, ?_, ?_⟩
  · exact (c6_allowlist envW get_builtin_tools_config ["*", "foo"]).2.2.1 (by decide)
  · have h := (c6_allowlist envW get_builtin_tools_config ["search_web"]).2.2.2.1
      (by decide)
    rw [h]; decide

/-! ## Claim C2 -- job-record merge -/

/-- A job record as the blueprint-side queue worker can leave it: it
carries a `startedAt` key, which is not part of the payload
`_update_job_status` builds. -/
def c2PriorRec : JobRec :=
  ⟨some "running", some 1, some "running msg", some "", some "", some "",
   some "T1", some "T0", none, none, none, [("startedAt", "T1")]⟩

/-- C2 counterexample: a `running` progress update on a record carrying
the field `startedAt` (a field the update does not set) drops that
field -- the write replaces the blob rather than merging every prior
field, refuting the claim that every untouched field survives. -/
theorem c2_counterexample :
    (updateJobStatus (some c2PriorRec) "T2" "running" 20 "thinking" "" "" ""
        (some "T0") none none none).extra = [] ∧
    c2PriorRec.extra ≠ [] := by decide

/-- C2 (amended): `_update_job_status` preserves `createdAt` whenever
the caller passes no `created_at` (or passes the stored one) and the
stored value is truthy, and similarly keeps `selected_model`, `mode`
and a non-empty `used_tools` when they are not overridden; but the
write replaces the record with the fresh payload, so fields outside the
payload's fixed key set do not survive (`extra = []`). -/
theorem c2_merge (store : Option JobRec) (now status message tool pt ft : String)
    (progress : Int) (created_at selected_model mode : Option String)
    (used_tools : Option (List String))
    (hc : created_at = none ∨ created_at = (store.getD emptyJobRec).createdAt)
    (ht : strTruthy (store.getD emptyJobRec).createdAt = true) :
    (updateJobStatus store now status progress message tool pt ft
        created_at selected_model mode used_tools).createdAt
      = (store.getD emptyJobRec).createdAt
    ∧ (selected_model = none →
        strTruthy (store.getD emptyJobRec).selected_model = true →
        (updateJobStatus store now status progress message tool pt ft
            created_at selected_model mode used_tools).selected_model
          = (store.getD emptyJobRec).selected_model)
    ∧ (mode = none → strTruthy (store.getD emptyJobRec).mode = true →
        (updateJobStatus store now status progress message tool pt ft
            created_at selected_model mode used_tools).mode
          = (store.getD emptyJobRec).mode)
    ∧ (used_tools = none →
        usedToolsTruthy (store.getD emptyJobRec).used_tools = true →
        (updateJobStatus store now status progress message tool pt ft
            created_at selected_model mode used_tools).used_tools
          = (store.getD emptyJobRec).used_tools)
    ∧ (updateJobStatus store now status progress message tool pt ft
        created_at selected_model mode used_tools).extra = [] := by
  refine ⟨?_, ?_, ?_, ?_, rfl⟩
  · rcases hc with h | h
    · subst h
      simp [updateJobStatus, updateJobStatusRec, pickStr, strTruthy_none, ht]
    · subst h
      simp [updateJobStatus, updateJobStatusRec, pickStr, ht]
  · intro hsm htm
    subst hsm
    simp [updateJobStatus, updateJobStatusRec, pickStr, strTruthy_none, htm]
  · intro hm htm
    subst hm
    simp [updateJobStatus, updateJobStatusRec, pickStr, strTruthy_none, htm]
  · intro hu htu
    subst hu
    simp [updateJobStatus, updateJobStatusRec, htu]

/-- C2 witness: a concrete progress update preserving `createdAt`. -/
theorem c2_merge_witness :
    (updateJobStatus (some c2PriorRec) "T2" "running" 20 "thinking" "" "" ""
        none none none none).createdAt = some "T0" := by
  have h := (c2_merge (some c2PriorRec) "T2" "running" "thinking" "" "" "" 20
    none none none none (Or.inl rfl) (by decide)).1
  rw [h]; rfl

/-! ## Claim C1 -- the tool loop's round bound -/

/-- Is an event a tool-output submission? -/
def isSubmitEv : Event → Bool
  | .submit _ _ _ => true
  | _ => false

/-- Number of tool-output submissions in a trace. -/
def countSubmits (evs : List Event) : Nat := (evs.filter isSubmitEv).length

/-- Submission counting distributes over trace concatenation. -/
theorem countSubmits_append (a b : List Event) :
    countSubmits (a ++ b) = countSubmits a + countSubmits b := by
  simp [countSubmits, List.filter_append]

/-- Processing a single tool call performs no submission. -/
theorem processOneCall_submits (c : Client) (env : PyEnv) (tc : Option Args)
    (acc : CallsAcc) (call : ToolCall) :
    countSubmits (processOneCall c env tc acc call).events = countSubmits acc.events := by
  unfold processOneCall
  split
  · rfl
  · rcases h : c.execTool acc.events (callNameOf call) (callArgsOf env call) tc
      with e | o <;>
      simp [h, countSubmits_append, countSubmits, isSubmitEv]

/-- Processing a round's call list performs no submission. -/
theorem processCalls_submits (c : Client) (env : PyEnv) (tc : Option Args)
    (calls : List ToolCall) : ∀ acc : CallsAcc,
    countSubmits (processCalls c env tc acc calls).events = countSubmits acc.events := by
  induction calls with
  | nil => intro acc; rfl
  | cons a t ih =>
      intro acc
      show countSubmits (processCalls c env tc (processOneCall c env tc acc a) t).events = _
      rw [ih, processOneCall_submits]

/-- Waiting performs no submission. -/
theorem wrapWait_submits (c : Client) (evs : List Event) (r : Response) :
    countSubmits (wrapWait c evs r).2 = countSubmits evs := by
  unfold wrapWait
  cases r.rid with
  | none => rfl
  | some i =>
      rcases h : c.waitFor evs i with e | r2 <;>
        simp [h, countSubmits_append, countSubmits, isSubmitEv]

/-- Each loop iteration performs at most one submission: the loop with
`fuel` remaining iterations adds at most `fuel` submissions. -/
theorem toolLoop_submits (c : Client) (env : PyEnv) (tc : Option Args)
    (modelName : Option String) : ∀ (fuel : Nat) (st : LoopState),
    countSubmits (toolLoop c env tc modelName fuel st).st.events ≤
      countSubmits st.events + fuel := by
  intro fuel
  induction fuel with
  | zero => intro st; simp [toolLoop]
  | succ n ih =>
      intro st
      rw [toolLoop]
      split
      · -- in_progress
        cases hrid : st.response.rid with
        | some i =>
            rcases hw : c.waitFor st.events i with e | r2
            · simp only [hrid, hw]
              simp [countSubmits_append, countSubmits, isSubmitEv]
            · simp only [hrid, hw]
              refine le_trans (ih _) ?_
              simp [countSubmits_append, countSubmits, isSubmitEv]
        | none =>
            simp only [hrid]
            exact le_trans (ih st) (by omega)
      · split
        · simp
        · split
          · simp
          · rcases hs : c.submit (processCalls c env tc
                ⟨[], st.usedTools, st.executedAny, st.events⟩ st.response.toolCalls).events
                st.response.rid
                (processCalls c env tc ⟨[], st.usedTools, st.executedAny, st.events⟩
                  st.response.toolCalls).outputs
                (if strTruthy modelName then modelName else none) with e | r2
            · simp only [hs]
              have hp := processCalls_submits c env tc st.response.toolCalls
                ⟨[], st.usedTools, st.executedAny, st.events⟩
              simp [countSubmits_append, countSubmits, isSubmitEv] at hp ⊢
              omega
            · simp only [hs]
              refine le_trans (ih _) ?_
              have hp := processCalls_submits c env tc st.response.toolCalls
                ⟨[], st.usedTools, st.executedAny, st.events⟩
              have hw := wrapWait_submits c ((processCalls c env tc
                ⟨[], st.usedTools, st.executedAny, st.events⟩ st.response.toolCalls).events ++
                [Event.submit st.response.rid
                  (processCalls c env tc ⟨[], st.usedTools, st.executedAny, st.events⟩
                    st.response.toolCalls).outputs
                  (if strTruthy modelName then modelName else none)]) r2
              simp [countSubmits_append, countSubmits, isSubmitEv] at hp hw ⊢
              omega

/-- The realtime fallback performs no submission. -/
theorem heuristicRealtime_submits (c : Client) (tc : Option Args)
    (tools : List ToolSpec) (ut ot : Option String) (used : List UsedTool)
    (evs : List Event) :
    countSubmits (heuristicRealtime c tc tools ut ot used evs).events =
      countSubmits evs := by
  unfold heuristicRealtime
  by_cases hcnd : (hasSearchTool tools && strTruthy ut &&
      realtimeMarkers.any fun k => containsSub (pyLower (ut.getD "")) k) = true
  · rcases h : c.execTool evs "search_web" [("query", ut.getD "")] tc with e | d
    · simp [hcnd, h, countSubmits_append, countSubmits, isSubmitEv]
    · simp only [hcnd, h, if_true]
      split <;> simp [countSubmits_append, countSubmits, isSubmitEv]
  · simp [hcnd]

/-- The state a document-service step leaves behind, whether it
returned or aborted. -/
def docOut : Except DocState DocState → DocState
  | .ok st => st
  | .error st => st

/-- One document-service step performs no submission. -/
theorem docStep_submits (c : Client) (tc : Option Args) (cond : Bool)
    (nm : String) (args : Args) (st : DocState) :
    countSubmits (docOut (docStep c tc cond nm args st)).events =
      countSubmits st.events := by
  unfold docStep
  split
  · rcases h : c.execTool st.events nm args tc with e | o
    · simp [h, docOut, countSubmits_append, countSubmits, isSubmitEv]
    · simp only [h]
      split <;> simp [docOut, countSubmits_append, countSubmits, isSubmitEv]
  · rfl

/-- The chained document-service steps perform no submission. -/
theorem docChain_submits (c : Client) (tc : Option Args) :
    ∀ (steps : List (Bool × String × Args)) (st : DocState),
    countSubmits (docOut (steps.foldlM
      (fun st2 s => docStep c tc s.1 s.2.1 s.2.2 st2) st)).events =
      countSubmits st.events := by
  intro steps
  induction steps with
  | nil => intro st; rfl
  | cons a t ih =>
      intro st
      rcases h : docStep c tc a.1 a.2.1 a.2.2 st with st' | st'
      · have h2 := docStep_submits c tc a.1 a.2.1 a.2.2 st
        rw [h] at h2
        simp only [List.foldlM, h, docOut]
        simpa [docOut] using h2
      · have h2 := docStep_submits c tc a.1 a.2.1 a.2.2 st
        rw [h] at h2
        simp only [List.foldlM, h]
        rw [show ((Except.ok st' : Except DocState DocState) >>= fun st2 =>
          t.foldlM (fun st2 s => docStep c tc s.1 s.2.1 s.2.2 st2) st2) =
          t.foldlM (fun st2 s => docStep c tc s.1 s.2.1 s.2.2 st2) st' from rfl]
        rw [ih st']
        simpa [docOut] using h2

/-- The document-service fallback performs no submission. -/
theorem heuristicDocsvc_submits (c : Client) (env : PyEnv) (tc : Option Args)
    (tools : List ToolSpec) (ut iu : Option String) (fb : FbOut) :
    countSubmits (heuristicDocsvc c env tc tools ut iu fb).events =
      countSubmits fb.events := by
  unfold heuristicDocsvc
  by_cases hcnd : ((docsvcToolNames.any fun n => (availableNames tools).contains n) &&
      strTruthy ut) = true
  · have h := docChain_submits c tc
      (docsvcSteps env (ut.getD "") iu (availableNames tools))
      ⟨[], fb.usedTools, fb.events⟩
    rw [if_pos hcnd]
    rcases heq : (docsvcSteps env (ut.getD "") iu (availableNames tools)).foldlM
        (fun st2 (s : Bool × String × Args) => docStep c tc s.1 s.2.1 s.2.2 st2)
        (⟨[], fb.usedTools, fb.events⟩ : DocState) with st' | st'
    · rw [heq] at h
      simp only [docOut] at h
      simp only [heq]
      exact h
    · rw [heq] at h
      simp only [docOut] at h
      simp only [heq]
      split <;> simpa using h
  · rw [if_neg hcnd]

/-- The fallback stage performs no submission. -/
theorem fallbackStage_submits (c : Client) (env : PyEnv) (tc : Option Args)
    (args : RespArgs) (iu : Option String) (ap ea : Bool) (ot : Option String)
    (used : List UsedTool) (evs : List Event) :
    countSubmits (fallbackStage c env tc args iu ap ea ot used evs).events =
      countSubmits evs := by
  unfold fallbackStage
  split
  · rw [heuristicDocsvc_submits, heuristicRealtime_submits]
  · rfl

/-- The post-synthesis pass performs no submission. -/
theorem postSynthesis_submits (c : Client) (env : PyEnv) (args : RespArgs)
    (ap : Bool) (fb : FbOut) (r : Response) :
    countSubmits (postSynthesis c env args ap fb r).events =
      countSubmits fb.events := by
  unfold postSynthesis
  by_cases hcnd : (ap && strStripTruthy fb.fallbackText) = true
  · rw [if_pos hcnd]
    rcases h1 : c.create fb.events (synthArgs env args fb) with e | fr
    · simp [countSubmits_append, countSubmits, isSubmitEv]
    · simp only []
      by_cases h2 : strStripTruthy fr.outputText = true
      · simp [h2, countSubmits_append, countSubmits, isSubmitEv]
      · simp only [h2, Bool.false_eq_true, if_false]
        rcases h3 : c.create (fb.events ++ [Event.create (synthArgs env args fb)])
            (synthArgs env args fb) with e | dr
        · simp [countSubmits_append, countSubmits, isSubmitEv]
        · simp only []
          split <;> simp [countSubmits_append, countSubmits, isSubmitEv]
  · rw [if_neg hcnd]

/-- The post-loop phase performs no further submission. -/
theorem runAfterLoop_submits (c : Client) (env : PyEnv) (tc : Option Args)
    (args : RespArgs) (ap : Bool) (iu : Option String) (lo : LoopOut) :
    countSubmits (runAfterLoop c env tc args ap iu lo).events =
      countSubmits lo.st.events := by
  unfold runAfterLoop
  split
  · rfl
  · rw [postSynthesis_submits, fallbackStage_submits]

/-- C1: for every client behaviour, request arguments and tool context,
`run_responses_with_tools` performs at most 6 tool-output submissions
-- the `max_loops = 6` bound caps the rounds no matter how often the
service answers `requires_action`, and the function always returns (it
is total), degrading to whatever output text is available. -/
theorem c1_round_bound (c : Client) (env : PyEnv) (args0 : RespArgs)
    (allowPost : Bool) (tcx : Option Args) :
    countSubmits (run_responses_with_tools c env args0 allowPost tcx).events ≤ 6 := by
  have key : ∀ (tc : Option Args) (modelName : Option String) (args : RespArgs)
      (iu : Option String) (res : Except String Response),
      countSubmits (runAfterCreate c env tc modelName args allowPost iu res).events ≤ 6 := by
    intro tc modelName args iu res
    cases res with
    | error e => simp [runAfterCreate, countSubmits, isSubmitEv]
    | ok r0 =>
        rw [runAfterCreate, runAfterLoop_submits]
        refine le_trans (toolLoop_submits c env tc modelName 6 _) ?_
        rw [wrapWait_submits]
        simp [countSubmits, isSubmitEv]
  unfold run_responses_with_tools
  apply key

/-! ## Claim C4 -- exception behaviour of run_responses_with_tools -/

/-- A client whose every call raises. -/
def c4BadClient : Client :=
  ⟨fun _ _ => .error "boom", fun _ _ => .error "boom",
   fun _ _ _ _ => .error "boom", fun _ _ _ _ => .error "boom"⟩

/-- A client whose every call succeeds. -/
def c4OkClient : Client :=
  ⟨fun _ _ => .ok emptyResponse, fun _ _ => .ok emptyResponse,
   fun _ _ _ _ => .ok emptyResponse, fun _ _ _ _ => .ok "out"⟩

/-- A client whose creates and submissions succeed while every wait and
every tool execution raises. -/
def c4MixClient : Client :=
  ⟨fun _ _ => .ok emptyResponse, fun _ _ => .error "boom",
   fun _ _ _ _ => .ok emptyResponse, fun _ _ _ _ => .error "boom"⟩

/-- Request arguments for the C4 scenarios. -/
def c4Args : RespArgs :=
  ⟨some "m", [⟨"user", [⟨"input_text", some "hi"⟩]⟩], [], none⟩

/-- C4 counterexample: when the very first request submission raises,
`run_responses_with_tools` raises to its caller (`raisedMsg` is set)
instead of returning a degraded result -- the initial
`client.responses.create` at conversation.py line 152 is outside every
`try` block. -/
theorem c4_counterexample :
    (run_responses_with_tools c4BadClient envW c4Args true none).raisedMsg =
      some "boom" := rfl

/-- The tool loop returns normally whenever `submit_tool_outputs` never
raises. -/
theorem toolLoop_no_raise (c : Client) (env : PyEnv) (tc : Option Args)
    (modelName : Option String)
    (hsubmit : ∀ evs i o m, ∃ r, c.submit evs i o m = .ok r) :
    ∀ (fuel : Nat) (st : LoopState),
    (toolLoop c env tc modelName fuel st).raisedMsg = none := by
  intro fuel
  induction fuel with
  | zero => intro st; rfl
  | succ n ih =>
      intro st
      rw [toolLoop]
      split
      · cases hrid : st.response.rid with
        | some i =>
            rcases hw : c.waitFor st.events i with e | r2 <;> simp only [hrid, hw]
            exact ih _
        | none =>
            simp only [hrid]
            exact ih st
      · split
        · rfl
        · split
          · rfl
          · obtain ⟨r2, hs⟩ := hsubmit (processCalls c env tc
              ⟨[], st.usedTools, st.executedAny, st.events⟩ st.response.toolCalls).events
              st.response.rid
              (processCalls c env tc ⟨[], st.usedTools, st.executedAny, st.events⟩
                st.response.toolCalls).outputs
              (if strTruthy modelName then modelName else none)
            simp only [hs]
            exact ih _

/-- The post-loop phase never raises on its own. -/
theorem runAfterLoop_no_raise (c : Client) (env : PyEnv) (tc : Option Args)
    (args : RespArgs) (ap : Bool) (iu : Option String) (lo : LoopOut)
    (h : lo.raisedMsg = none) :
    (runAfterLoop c env tc args ap iu lo).raisedMsg = none := by
  simp [runAfterLoop, h]

/-- C4 (amended): `run_responses_with_tools` raises only when the
initial create or a tool-output submission raises.  Whenever the one
initial `responses.create` (on the prepared arguments) and the
`submit_tool_outputs` calls return normally, the function returns
normally -- waits, tool executions and the fallback and post-synthesis
requests (including their `responses.create` calls) may fail
arbitrarily, those failures are caught inside. -/
theorem c4_no_raise (c : Client) (env : PyEnv) (args0 : RespArgs)
    (allowPost : Bool) (tcx : Option Args)
    (hcreate : ∃ r, c.create [] (preparedArgs env args0) = .ok r)
    (hsubmit : ∀ evs i o m, ∃ r, c.submit evs i o m = .ok r) :
    (run_responses_with_tools c env args0 allowPost tcx).raisedMsg = none := by
  obtain ⟨r0, hc⟩ := hcreate
  unfold run_responses_with_tools
  rw [hc, runAfterCreate]
  exact runAfterLoop_no_raise c env _ _ allowPost _ _
    (toolLoop_no_raise c env _ _ hsubmit 6 _)

/-- C4 witness: a client whose initial create and submissions succeed
but whose every wait and tool execution raises still returns
normally. -/
theorem c4_no_raise_witness :
    (run_responses_with_tools c4MixClient envW c4Args true none).raisedMsg = none :=
  c4_no_raise c4MixClient envW c4Args true none
    ⟨emptyResponse, rfl⟩ (fun _ _ _ _ => ⟨emptyResponse, rfl⟩)

/-! ## Claim C5 -- per-round tool-call error handling -/

/-- Processing a single tool call grows `outputs` by exactly one
entry. -/
theorem processOneCall_len (c : Client) (env : PyEnv) (tcx : Option Args)
    (acc : CallsAcc) (call : ToolCall) :
    (processOneCall c env tcx acc call).outputs.length = acc.outputs.length + 1 := by
  unfold processOneCall
  split
  · simp
  · rcases h : c.execTool acc.events (callNameOf call) (callArgsOf env call) tcx
      with e | o <;> simp [h]

/-- C5: within a round, a classic call whose arguments string is not
valid JSON is still dispatched, with the empty-object argument map; a
call whose execution raises contributes exactly the fixed output
`"Tool execution failed."`; and every call of the round contributes
exactly one output -- the round never aborts. -/
theorem c5_tool_call_handling (c : Client) (env : PyEnv) (tcx : Option Args)
    (acc : CallsAcc) (call : ToolCall) (s : String) :
    (callTypeOf call ≠ "mcp" →
      call.funcArgs = some (RawArgs.rstr s) → s.isEmpty = false →
      env.jsonLoadsObj s = none →
      (processOneCall c env tcx acc call).events =
        acc.events ++ [Event.exec (callNameOf call) []])
    ∧ (∀ e, callTypeOf call ≠ "mcp" →
        c.execTool acc.events (callNameOf call) (callArgsOf env call) tcx =
          .error e →
        (processOneCall c env tcx acc call).outputs =
          acc.outputs ++ [⟨call.cid.getD "", "Tool execution failed."⟩])
    ∧ (∀ calls : List ToolCall,
        (processCalls c env tcx acc calls).outputs.length =
          acc.outputs.length + calls.length) := by
  refine ⟨?_, ?_, ?_⟩
  · intro h1 h2 h3 h4
    have hb : (callTypeOf call == "mcp") = false := beq_eq_false_iff_ne.mpr h1
    have hargs : callArgsOf env call = [] := by
      simp [callArgsOf, h2, h3, h4]
    simp only [processOneCall, hb, Bool.false_eq_true, if_false]
    rcases h : c.execTool acc.events (callNameOf call) (callArgsOf env call) tcx
      with e | o <;> simp [h, hargs]
  · intro e h1 herr
    have hb : (callTypeOf call == "mcp") = false := beq_eq_false_iff_ne.mpr h1
    simp only [processOneCall, hb, Bool.false_eq_true, if_false, herr]
  · intro calls
    induction calls generalizing acc with
    | nil => rfl
    | cons a t ih =>
        show (processCalls c env tcx (processOneCall c env tcx acc a) t).outputs.length = _
        rw [ih, processOneCall_len]
        simp [Nat.add_assoc, Nat.add_comm 1 t.length]

/-- The client of the C5 witness: tool execution always raises. -/
def c5Client : Client :=
  ⟨fun _ _ => .ok emptyResponse, fun _ _ => .ok emptyResponse,
   fun _ _ _ _ => .ok emptyResponse, fun _ _ _ _ => .error "tool-broke"⟩

/-- A classic tool call with unparseable JSON arguments. -/
def c5Call : ToolCall :=
  ⟨some "id1", some "function", none, some "mytool", some (.rstr "not json")⟩

/-- Empty round accumulator. -/
def c5Acc : CallsAcc := ⟨[], [], false, []⟩

/-- C5 witness: the malformed-arguments call is dispatched with `{}`,
the raising execution yields the fixed failure output, and two such
calls still produce two outputs. -/
theorem c5_tool_call_handling_witness :
    (processOneCall c5Client envW none c5Acc c5Call).events =
      [Event.exec "mytool" []] ∧
    (processOneCall c5Client envW none c5Acc c5Call).outputs =
      [⟨"id1", "Tool execution failed."⟩] ∧
    (processCalls c5Client envW none c5Acc [c5Call, c5Call]).outputs.length = 2 := by
  obtain ⟨h1, h2, h3⟩ := c5_tool_call_handling c5Client envW none c5Acc c5Call "not json"
  refine ⟨?_, ?_, ?_⟩
  · simpa using h1 (by decide) rfl (by decide) rfl
  · simpa using h2 "tool-broke" (by decide) rfl
  · simpa using h3 [c5Call, c5Call]

/-! ## Claim C8 -- realtime websearch fallback -/

/-- A document-service step only appends to the used-tools list and the
trace. -/
theorem docStep_extend (c : Client) (tc : Option Args) (cond : Bool)
    (nm : String) (args : Args) (st : DocState) :
    ∃ du de, (docOut (docStep c tc cond nm args st)).usedTools = st.usedTools ++ du
      ∧ (docOut (docStep c tc cond nm args st)).events = st.events ++ de := by
  unfold docStep
  split
  · rcases h : c.execTool st.events nm args tc with e | o
    · exact ⟨[], [Event.exec nm args], by simp [h, docOut], by simp [h, docOut]⟩
    · simp only [h]
      split
      · exact ⟨[⟨nm, some args, "classic", true⟩], [Event.exec nm args],
          by simp [docOut], by simp [docOut]⟩
      · exact ⟨[], [Event.exec nm args], by simp [docOut], by simp [docOut]⟩
  · exact ⟨[], [], by simp [docOut], by simp [docOut]⟩

/-- The chained document-service steps only append to the used-tools
list and the trace. -/
theorem docChain_extend (c : Client) (tc : Option Args) :
    ∀ (steps : List (Bool × String × Args)) (st : DocState),
    ∃ du de, (docOut (steps.foldlM
        (fun st2 s => docStep c tc s.1 s.2.1 s.2.2 st2) st)).usedTools =
        st.usedTools ++ du
      ∧ (docOut (steps.foldlM
        (fun st2 s => docStep c tc s.1 s.2.1 s.2.2 st2) st)).events =
        st.events ++ de := by
  intro steps
  induction steps with
  | nil =>
      intro st
      refine ⟨[], [], ?_, ?_⟩ <;>
        simp [List.foldlM, docOut,
          show (pure st : Except DocState DocState) = Except.ok st from rfl]
  | cons a t ih =>
      intro st
      obtain ⟨du1, de1, h1, h2⟩ := docStep_extend c tc a.1 a.2.1 a.2.2 st
      rcases h : docStep c tc a.1 a.2.1 a.2.2 st with st' | st'
      · rw [h] at h1 h2
        simp only [docOut] at h1 h2
        have hfold : (a :: t).foldlM
            (fun st2 (s : Bool × String × Args) => docStep c tc s.1 s.2.1 s.2.2 st2) st =
            Except.error st' := by
          simp only [List.foldlM, h]
          rfl
        rw [hfold]
        exact ⟨du1, de1, h1, h2⟩
      · rw [h] at h1 h2
        simp only [docOut] at h1 h2
        obtain ⟨du2, de2, i1, i2⟩ := ih st'
        have hfold : (a :: t).foldlM
            (fun st2 (s : Bool × String × Args) => docStep c tc s.1 s.2.1 s.2.2 st2) st =
            t.foldlM (fun st2 (s : Bool × String × Args) =>
              docStep c tc s.1 s.2.1 s.2.2 st2) st' := by
          simp only [List.foldlM, h]
          rfl
        rw [hfold]
        refine ⟨du1 ++ du2, de1 ++ de2, ?_, ?_⟩
        · rw [i1, h1, List.append_assoc]
        · rw [i2, h2, List.append_assoc]

/-- The document-service heuristic only appends to the used-tools list
and the trace. -/
theorem heuristicDocsvc_extend (c : Client) (env : PyEnv) (tc : Option Args)
    (tools : List ToolSpec) (ut iu : Option String) (fb : FbOut) :
    ∃ du de, (heuristicDocsvc c env tc tools ut iu fb).usedTools = fb.usedTools ++ du
      ∧ (heuristicDocsvc c env tc tools ut iu fb).events = fb.events ++ de := by
  unfold heuristicDocsvc
  by_cases hcnd : ((docsvcToolNames.any fun n => (availableNames tools).contains n) &&
      strTruthy ut) = true
  · rw [if_pos hcnd]
    obtain ⟨du, de, h1, h2⟩ := docChain_extend c tc
      (docsvcSteps env (ut.getD "") iu (availableNames tools))
      ⟨[], fb.usedTools, fb.events⟩
    rcases heq : (docsvcSteps env (ut.getD "") iu (availableNames tools)).foldlM
        (fun st2 (s : Bool × String × Args) => docStep c tc s.1 s.2.1 s.2.2 st2)
        (⟨[], fb.usedTools, fb.events⟩ : DocState) with st' | st'
    · rw [heq] at h1 h2
      simp only [docOut] at h1 h2
      simp only [heq]
      exact ⟨du, de, h1, h2⟩
    · rw [heq] at h1 h2
      simp only [docOut] at h1 h2
      simp only [heq]
      split <;> exact ⟨du, de, h1, h2⟩
  · rw [if_neg hcnd]
    exact ⟨[], [], by simp, by simp⟩

/-- When its guards hold, the realtime heuristic performs the direct
search call, and records it whenever the result is non-blank. -/
theorem heuristicRealtime_fires (c : Client) (tcx : Option Args)
    (tools : List ToolSpec) (ot : Option String) (used : List UsedTool)
    (evs : List Event) (ut : String)
    (hne : ut.isEmpty = false)
    (hs : hasSearchTool tools = true)
    (hm : realtimeMarkers.any (fun k => containsSub (pyLower ut) k) = true) :
    (heuristicRealtime c tcx tools (some ut) ot used evs).events =
      evs ++ [Event.exec "search_web" [("query", ut)]]
    ∧ (∀ d, c.execTool evs "search_web" [("query", ut)] tcx = Except.ok d →
        (pyTrim d).isEmpty = false →
        (heuristicRealtime c tcx tools (some ut) ot used evs).usedTools =
          used ++ [⟨"search_web", some [("query", ut)], "classic", true⟩]) := by
  constructor
  · unfold heuristicRealtime
    rcases hex : c.execTool evs "search_web" [("query", ut)] tcx with e | d
    · simp [hs, hm, hne, strTruthy, hex]
    · simp only [hs, hm, hne, strTruthy, hex, Option.getD_some, Bool.not_false,
        Bool.and_self, Bool.true_and, Bool.and_true, if_true]
      split <;> simp [hs, hm, hne, strTruthy, hex]
  · intro d hd ht
    unfold heuristicRealtime
    simp [hs, hm, hne, strTruthy, hd, ht]

/-- `String.isEmpty` of an explicit character list. -/
theorem isEmpty_mk (m : List Char) : (String.mk m).isEmpty = m.isEmpty := by
  cases m with
  | nil => rfl
  | cons c t =>
      rw [List.isEmpty_cons, Bool.eq_false_iff]
      intro hb
      rw [String.isEmpty_iff] at hb
      have hd := congrArg String.data hb
      simp at hd

/-- A string strips to the empty string exactly when every character is
whitespace. -/
theorem pyTrim_isEmpty_iff (s : String) :
    (pyTrim s).isEmpty = true ↔ ∀ c ∈ s.data, c.isWhitespace = true := by
  unfold pyTrim
  rw [isEmpty_mk, List.isEmpty_iff, List.reverse_eq_nil_iff,
    List.dropWhile_eq_nil_iff]
  constructor
  · intro h c hc
    by_cases hw : c.isWhitespace = true
    · exact hw
    · exfalso
      have hcd : c ∈ s.data.dropWhile Char.isWhitespace := by
        rcases (List.takeWhile_append_dropWhile (p := Char.isWhitespace)
          (l := s.data)) ▸ hc with h2
        rcases List.mem_append.mp h2 with h3 | h3
        · exact absurd (List.mem_takeWhile_imp h3) hw
        · exact h3
      exact hw (h c (List.mem_reverse.mpr hcd))
  · intro h c hc
    exact h c ((List.dropWhile_sublist _).mem (List.mem_reverse.mp hc))

/-- Appending cannot blank out a non-blank left part. -/
theorem strip_nonblank_left (s t : String) (h : (pyTrim s).isEmpty = false) :
    (pyTrim (s ++ t)).isEmpty = false := by
  rw [Bool.eq_false_iff] at h ⊢
  intro hall
  apply h
  rw [pyTrim_isEmpty_iff] at hall ⊢
  intro c hc
  exact hall c (by rw [String.data_append]; exact List.mem_append_left _ hc)

/-- Truthiness of a decoded JSON value, as used by `any(data.values())`
and `data.get("error")` in `_call_websearch_backend` (tools.py lines
255-256).  Floats are carried as their repr string, on which JSON
decoding yields `0.0`/`-0.0` for the falsy zero values; the opaque
`pdict` constructor stands for a decoded object whose emptiness is not
carried and is treated as truthy -- either branch of the one guard that
consults it returns a non-blank string, so no modelled path depends on
the distinction. -/
def pyTruthy : PyVal → Bool
  | .pstr s => !s.isEmpty
  | .pint n => decide (n ≠ 0)
  | .pbool b => b
  | .pfloat r => !(r == "0.0" || r == "-0.0")
  | .plist xs => !xs.isEmpty
  | .pdict => true
  | .pnone => false

/-- Truthiness of an optional decoded value (`data.get(k)`). -/
def pyTruthyOpt : Option PyVal → Bool
  | some v => pyTruthy v
  | none => false

/-- `json.dumps` of a decoded JSON value, with nested collections
elided: the modelled code only ever serialises a decoded object, whose
enclosing braces already make the result non-blank, and then truncates
it for a log-style message, so element-level fidelity is not needed. -/
def jsonValDumps : PyVal → String
  | .pstr s => "\"" ++ s ++ "\""
  | .pint n => toString n
  | .pbool b => if b then "true" else "false"
  | .pfloat r => r
  | .plist _ => "[...]"
  | .pdict => "\x7b...\x7d"
  | .pnone => "null"

/-- `json.dumps(data, ensure_ascii=False)` on a decoded object. -/
def jsonObjDumps (kvs : List (String × PyVal)) : String :=
  "\x7b" ++ String.intercalate ", "
    (kvs.map (fun kv => "\"" ++ kv.1 ++ "\": " ++ jsonValDumps kv.2)) ++ "\x7d"

/-- Outcome of the `requests.post` call of `_call_websearch_backend`
(tools.py lines 228-284): one of the three caught exception classes, or
a response carrying its status code, body text, and JSON-decoded body
(`none` both when decoding raises and when the decoded value is not an
object -- the source treats the two identically). -/
inductive WebPost where
  | timeout
  | connError
  | raised (e : String)
  | resp (status : Nat) (text : String) (data : Option (List (String × PyVal)))

/-- The environment of one websearch-backend call: the backend URL
(`none` for an unset or empty `WEBSEARCH_URL`), the outcome of the lazy
`requests` import (`some e` = the import failed with message `e`), and
the POST outcome.  The payload and focus-mode computation of tools.py
lines 163-221 and the key and `_redact_secrets` handling only shape the
outgoing request, the log lines and the url fragment quoted inside the
fixed error messages (rendered here with the raw url), and cannot
change which return path is taken. -/
structure WebEnv where
  url : Option String
  requestsImport : Option String
  post : WebPost

/-- The structured-field preference of tools.py lines 249-253: the
first of the four keys bound to a string whose strip is non-blank. -/
def webStructured (kvs : List (String × PyVal)) : Option String :=
  ["output_text", "summary", "result", "content"].findSome? (fun k =>
    match kvs.lookup k with
    | some (.pstr s) => if (pyTrim s).isEmpty then none else some s
    | _ => none)

/-- Embedding of `_call_websearch_backend` (tools.py lines 155-284).
The inner `try` around `json.dumps` of the already-decoded object is
dropped: serialising a decoded value does not fail. -/
def call_websearch_backend (w : WebEnv) : String :=
  match w.url with
  | none => "Websearch backend not configured."
  | some u =>
    match w.requestsImport with
    | some e => "requests import failed: " ++ e
    | none =>
      match w.post with
      | .timeout =>
          "Websearch service timeout. Check if service is running at " ++ u
      | .connError =>
          "Cannot connect to websearch service. Check if service is running at " ++ u
      | .raised e => "websearch call failed: " ++ e
      | .resp status text data =>
          if status ≥ 400 then
            "websearch error " ++ toString status ++ ": " ++ ⟨text.data.take 500⟩
          else
            match data with
            | some kvs =>
                match webStructured kvs with
                | some val => val
                | none =>
                    if !(kvs.any (fun kv => pyTruthy kv.2)) ||
                        pyTruthyOpt (kvs.lookup "error") then
                      "No search results found. Service returned: " ++
                        ⟨(jsonObjDumps kvs).data.take 200⟩
                    else jsonObjDumps kvs
            | none =>
                if (pyTrim text).isEmpty then
                  "No search results returned by the websearch service."
                else text

/-- `execute_tool_call("search_web", arguments, context)` (tools.py
lines 285-297): the `search_web`/`websearch` branch dispatches to
`_call_websearch_backend` and returns its result unchanged; the
arguments and context only shape the outgoing request. -/
def execute_tool_call_web (w : WebEnv) : String := call_websearch_backend w

/-- The serialised object is non-blank (it is enclosed in braces). -/
theorem jsonObjDumps_nonblank (kvs : List (String × PyVal)) :
    (pyTrim (jsonObjDumps kvs)).isEmpty = false := by
  unfold jsonObjDumps
  exact strip_nonblank_left _ _ (strip_nonblank_left _ _ (by decide))

/-- A structured field is only returned when its strip is non-blank. -/
theorem webStructured_nonblank (kvs : List (String × PyVal)) (val : String)
    (h : webStructured kvs = some val) : (pyTrim val).isEmpty = false := by
  unfold webStructured at h
  obtain ⟨k, -, hk⟩ := List.exists_of_findSome?_eq_some h
  rcases hlk : kvs.lookup k with _ | v
  · rw [hlk] at hk
    exact Option.noConfusion hk
  · rw [hlk] at hk
    cases v
    case pstr s =>
      have hk2 : (if (pyTrim s).isEmpty = true then none else some s) = some val := hk
      by_cases he : (pyTrim s).isEmpty = true
      · rw [if_pos he] at hk2
        exact Option.noConfusion hk2
      · rw [if_neg he] at hk2
        have hv : s = val := Option.some.inj hk2
        rw [← hv]
        exact Bool.eq_false_iff.mpr he
    all_goals exact Option.noConfusion hk

/-- Every return path of `_call_websearch_backend` yields a string
whose strip is non-blank: the fixed messages carry non-whitespace
prefixes, structured fields are guarded by their own strip, the dumped
object is braced, and the raw body is guarded by its strip. -/
theorem websearch_nonblank (w : WebEnv) :
    (pyTrim (call_websearch_backend w)).isEmpty = false := by
  unfold call_websearch_backend
  rcases hu : w.url with _ | u
  · dsimp only
    decide
  · dsimp only
    rcases hri : w.requestsImport with _ | e
    · dsimp only
      rcases hp : w.post with _ | _ | e | ⟨status, text, data⟩
      · dsimp only
        exact strip_nonblank_left _ _ (by decide)
      · dsimp only
        exact strip_nonblank_left _ _ (by decide)
      · dsimp only
        exact strip_nonblank_left _ _ (by decide)
      · dsimp only
        by_cases hge : status ≥ 400
        · rw [if_pos hge]
          exact strip_nonblank_left _ _
            (strip_nonblank_left _ _ (strip_nonblank_left _ _ (by decide)))
        · rw [if_neg hge]
          rcases hd : data with _ | kvs
          · dsimp only
            by_cases ht : (pyTrim text).isEmpty = true
            · rw [if_pos ht]
              decide
            · rw [if_neg ht]
              exact Bool.eq_false_iff.mpr ht
          · dsimp only
            rcases hws : webStructured kvs with _ | val
            · by_cases hc2 : (!(kvs.any fun kv => pyTruthy kv.2) ||
                  pyTruthyOpt (kvs.lookup "error")) = true
              · rw [if_pos hc2]
                exact strip_nonblank_left _ _ (by decide)
              · rw [if_neg hc2]
                exact jsonObjDumps_nonblank kvs
            · exact webStructured_nonblank kvs val hws
    · dsimp only
      exact strip_nonblank_left _ _ (by decide)

/-- C8 (amended): when the tool loop finishes with no classic or
protocol tool executed, post-synthesis is allowed, a `search_web` tool
is configured and the last user text contains one of the code\x27s
realtime markers (`météo`/`meteo`/`weather`/`forecast`/`news`/
`actualité` -- not the "now"/"today" class the claim describes), the
fallback stage invokes `search_web` directly with the verbatim user
text as query and, because `execute_tool_call` returns a non-blank
string on every path, always records the invocation in the used-tools
list with a `direct` flag. -/
theorem c8_realtime_fallback (c : Client) (env : PyEnv) (tcx : Option Args)
    (args : RespArgs) (iu ot : Option String) (used : List UsedTool)
    (evs : List Event) (ut : String) (w : WebEnv)
    (hu : lastUserText args.input = some ut)
    (hne : ut.isEmpty = false)
    (hs : hasSearchTool args.tools = true)
    (hm : realtimeMarkers.any (fun k => containsSub (pyLower ut) k) = true)
    (hexec : c.execTool evs "search_web" [("query", ut)] tcx =
      Except.ok (execute_tool_call_web w)) :
    (∃ tail, (fallbackStage c env tcx args iu true false ot used evs).events =
        evs ++ Event.exec "search_web" [("query", ut)] :: tail)
    ∧ (⟨"search_web", some [("query", ut)], "classic", true⟩ : UsedTool) ∈
        (fallbackStage c env tcx args iu true false ot used evs).usedTools := by
  have hfs : fallbackStage c env tcx args iu true false ot used evs =
      heuristicDocsvc c env tcx args.tools (lastUserText args.input) iu
        (heuristicRealtime c tcx args.tools (lastUserText args.input) ot used evs) := rfl
  rw [hfs, hu]
  obtain ⟨hfe, hfu⟩ := heuristicRealtime_fires c tcx args.tools ot used evs ut hne hs hm
  obtain ⟨du, de, hdu, hde⟩ := heuristicDocsvc_extend c env tcx args.tools
    (some ut) iu (heuristicRealtime c tcx args.tools (some ut) ot used evs)
  constructor
  · refine ⟨de, ?_⟩
    rw [hde, hfe, List.append_assoc]
    rfl
  · rw [hdu, hfu (execute_tool_call_web w) hexec (websearch_nonblank w)]
    simp

/-- A concrete backend environment: the POST succeeds with a plain text
body. -/
def c8WebEnv : WebEnv := ⟨some "http://search.local", none, WebPost.resp 200 "res" none⟩

/-- The C8 client: the loop completes at once and the search tool
behaves as the embedded `execute_tool_call`. -/
def c8WClient : Client :=
  ⟨fun _ _ => .ok emptyResponse, fun _ _ => .ok emptyResponse,
   fun _ _ _ _ => .ok emptyResponse,
   fun _ _ _ _ => .ok (execute_tool_call_web c8WebEnv)⟩

/-- Request arguments whose last user text carries the code marker
`weather`. -/
def c8WArgs : RespArgs :=
  ⟨some "m", [⟨"user", [⟨"input_text", some "weather svp"⟩]⟩],
   [searchWebToolDef], none⟩

/-- Request arguments whose last user text carries only the claimed
"now"/"today"-class markers, none of the code\x27s markers. -/
def c8TodayArgs : RespArgs :=
  ⟨some "m", [⟨"user", [⟨"input_text", some "what is happening today right now"⟩]⟩],
   [searchWebToolDef], none⟩

/-- Is a conversation event a direct tool execution? -/
def isExecEvent : Event → Bool
  | .exec _ _ => true
  | _ => false

/-- C8 counterexample: two runs in which the tool loop completes with
no tool executed and a search tool is configured, yet no direct search
invocation happens at all -- (i) the last user text contains the marker
`weather` but post-synthesis is disallowed, a gate the claim omits;
(ii) post-synthesis is allowed but the text contains only the claimed
"now"/"today"-class markers, which are not in the code\x27s marker
tuple.  Both runs execute no tool and record nothing, refuting the
claim\x27s "whenever ... invokes ... and records". -/
theorem c8_counterexample :
    ((run_responses_with_tools c8WClient envW c8WArgs false none).events.filter
        isExecEvent = [] ∧
     (run_responses_with_tools c8WClient envW c8WArgs false none).usedTools = []) ∧
    ((run_responses_with_tools c8WClient envW c8TodayArgs true none).events.filter
        isExecEvent = [] ∧
     (run_responses_with_tools c8WClient envW c8TodayArgs true none).usedTools = []) := by
  refine ⟨⟨?_, ?_⟩, ?_, ?_⟩ <;> decide

/-- C8 witness: with the embedded executor the direct invocation is
performed and recorded with the `direct` flag. -/
theorem c8_realtime_fallback_witness :
    (⟨"search_web", some [("query", "weather svp")], "classic", true⟩ : UsedTool) ∈
      (fallbackStage c8WClient envW none c8WArgs none true false none [] []).usedTools :=
  (c8_realtime_fallback c8WClient envW none c8WArgs none none [] []
    "weather svp" c8WebEnv rfl rfl rfl (by decide) rfl).2

/-! ## Claims C3 and C9 -- worker write traces -/

/-- The progress value of a record (`0` when absent). -/
def progOf (r : JobRec) : Int := r.progress.getD 0

/-- Monotone non-decreasing progress along a write sequence. -/
def progMono (l : List JobRec) : Prop :=
  l.Chain' (fun a b => progOf a ≤ progOf b)

/-- A segment of writes: progress monotone, within `[lo, hi]`, and
never `queued`. -/
def writesBounded (ws : List JobRec) (lo hi : Int) : Prop :=
  progMono ws ∧ ∀ r ∈ ws, lo ≤ progOf r ∧ progOf r ≤ hi ∧ r.status ≠ some "queued"

/-- The empty segment is bounded. -/
theorem writesBounded_nil (lo hi : Int) : writesBounded [] lo hi :=
  ⟨List.chain'_nil, by simp⟩

/-- A singleton segment is bounded by its own progress. -/
theorem writesBounded_single (r : JobRec) (lo hi : Int) (h1 : lo ≤ progOf r)
    (h2 : progOf r ≤ hi) (h3 : r.status ≠ some "queued") :
    writesBounded [r] lo hi := by
  refine ⟨List.chain'_singleton r, ?_⟩
  intro x hx
  rw [List.mem_singleton] at hx
  subst hx
  exact ⟨h1, h2, h3⟩

/-- Bounded segments concatenate across a shared pivot. -/
theorem writesBounded_append {w1 w2 : List JobRec} {lo m hi : Int}
    (h1 : writesBounded w1 lo m) (h2 : writesBounded w2 m hi)
    (hlm : lo ≤ m) (hmh : m ≤ hi) : writesBounded (w1 ++ w2) lo hi := by
  constructor
  · rw [progMono, List.chain'_append]
    refine ⟨h1.1, h2.1, ?_⟩
    intro x hx y hy
    have hx2 : x ∈ w1 := List.mem_of_getLast?_eq_some (by simpa using hx)
    have hy2 : y ∈ w2 := List.mem_of_mem_head? hy
    exact le_trans (h1.2 x hx2).2.1 (h2.2 y hy2).1
  · intro r hr
    rcases List.mem_append.mp hr with h | h
    · obtain ⟨a, b, cq⟩ := h1.2 r h
      exact ⟨a, le_trans b hmh, cq⟩
    · obtain ⟨a, b, cq⟩ := h2.2 r h
      exact ⟨le_trans hlm a, b, cq⟩

/-- Widening the bounds of a segment. -/
theorem writesBounded_mono {ws : List JobRec} {lo hi lo2 hi2 : Int}
    (hl : lo2 ≤ lo) (hh : hi ≤ hi2) (h : writesBounded ws lo hi) :
    writesBounded ws lo2 hi2 := by
  refine ⟨h.1, ?_⟩
  intro r hr
  obtain ⟨a, b, cq⟩ := h.2 r hr
  exact ⟨le_trans hl a, le_trans b hh, cq⟩

/-- A worker stage extends the state: it only appends events, and
appends a bounded write segment. -/
def stageExt (st st2 : WSt) (lo hi : Int) : Prop :=
  (∃ d, st2.events = st.events ++ d) ∧
  ∃ ws, st2.writes = st.writes ++ ws ∧ writesBounded ws lo hi

/-- A stage that changes nothing (or only non-write state). -/
theorem stageExt_refl (st : WSt) (lo hi : Int) : stageExt st st lo hi :=
  ⟨⟨[], by simp⟩, [], by simp, writesBounded_nil lo hi⟩

/-- A stage that only appends events. -/
theorem stageExt_evs (st : WSt) (s : Option JobRec) (w : List JobRec)
    (d : List WEvent) (lo hi : Int) (hw : w = st.writes) :
    stageExt st ⟨s, w, st.events ++ d⟩ lo hi :=
  ⟨⟨d, rfl⟩, [], by simp [hw], writesBounded_nil lo hi⟩

/-- Stages compose across a shared pivot. -/
theorem stageExt_trans {st st2 st3 : WSt} {lo m hi : Int}
    (h1 : stageExt st st2 lo m) (h2 : stageExt st2 st3 m hi)
    (hlm : lo ≤ m) (hmh : m ≤ hi) : stageExt st st3 lo hi := by
  obtain ⟨⟨d1, he1⟩, w1, hw1, hb1⟩ := h1
  obtain ⟨⟨d2, he2⟩, w2, hw2, hb2⟩ := h2
  exact ⟨⟨d1 ++ d2, by rw [he2, he1, List.append_assoc]⟩,
         w1 ++ w2, by rw [hw2, hw1, List.append_assoc],
         writesBounded_append hb1 hb2 hlm hmh⟩

/-- Widening the bounds of a stage. -/
theorem stageExt_mono {st st2 : WSt} {lo hi lo2 hi2 : Int}
    (hl : lo2 ≤ lo) (hh : hi ≤ hi2) (h : stageExt st st2 lo hi) :
    stageExt st st2 lo2 hi2 := by
  obtain ⟨he, ws, hw, hb⟩ := h
  exact ⟨he, ws, hw, writesBounded_mono hl hh hb⟩

/-- A `_update_job_status` call is a one-write stage at its own
progress value. -/
theorem wWriteStatus_ext (env : WorkerEnv) (st : WSt) (status : String)
    (p : Int) (msg tool pt ft : String) (ca sm mo : Option String)
    (ut : Option (List String)) (hs : status ≠ "queued") :
    stageExt st (wWriteStatus env st status p msg tool pt ft ca sm mo ut) p p := by
  refine ⟨⟨[WEvent.wWrite (updateJobStatus st.store env.now status p msg tool
    pt ft ca sm mo ut)], rfl⟩,
    [updateJobStatus st.store env.now status p msg tool pt ft ca sm mo ut],
    rfl, writesBounded_single _ p p ?_ ?_ ?_⟩
  · simp [progOf, updateJobStatus, updateJobStatusRec]
  · simp [progOf, updateJobStatus, updateJobStatusRec]
  · simp [updateJobStatus, updateJobStatusRec]
    exact hs

/-- The state component of history injection: either untouched or one
fetch event appended. -/
theorem injectHistory_fst (env : WorkerEnv) (st : WSt) (uid : String)
    (cid : Option String) (args : RespArgs) :
    (injectHistory env st uid cid args).1 = st ∨
    (injectHistory env st uid cid args).1 =
      ⟨st.store, st.writes, st.events ++ [WEvent.wMemFetch]⟩ := by
  unfold injectHistory
  cases cid with
  | none => exact Or.inl rfl
  | some conv =>
      dsimp only
      by_cases hu : (!uid.isEmpty) = true
      · rw [if_pos hu]
        split
        · exact Or.inr rfl
        · right
          split <;> rfl
      · rw [if_neg hu]
        exact Or.inl rfl

/-- History injection writes nothing. -/
theorem injectHistory_ext (env : WorkerEnv) (st : WSt) (uid : String)
    (cid : Option String) (args : RespArgs) (lo hi : Int) :
    stageExt st (injectHistory env st uid cid args).1 lo hi := by
  rcases injectHistory_fst env st uid cid args with h | h <;> rw [h]
  · exact stageExt_refl st lo hi
  · exact stageExt_evs st st.store st.writes [WEvent.wMemFetch] lo hi rfl

/-- State extractor for the tool-call fold. -/
def stOfStep : Except (String × WSt) ToolsFoldAcc → WSt
  | .ok a => a.st
  | .error p => p.2

/-- State extractor for the worker branches. -/
def stOfBranch : Except (String × WSt) (WSt × Option String × List String) → WSt
  | .ok t => t.1
  | .error p => p.2

/-- State extractor for the preparation stage. -/
def stOfPrep : Except (String × WSt) (WSt × RespArgs × Option String × String) → WSt
  | .ok t => t.1
  | .error p => p.2

/-- State extractor for the worker body. -/
def stOfBody : Except (String × WSt) WSt → WSt
  | .ok st => st
  | .error p => p.2

/-- One classic-branch tool call is a stage writing only `running/50`
records. -/
theorem toolCallStep_ext (env : WorkerEnv) (tc0 : Option Args) (ca : Option String)
    (acc : ToolsFoldAcc) (tcall : ChatToolCall) :
    stageExt acc.st (stOfStep (toolCallStep env tc0 ca acc tcall)) 50 50 := by
  unfold toolCallStep
  dsimp only
  split
  · exact stageExt_evs acc.st acc.st.store acc.st.writes _ 50 50 rfl
  · exact stageExt_trans (stageExt_evs acc.st acc.st.store acc.st.writes _ 50 50 rfl)
      (wWriteStatus_ext env _ "running" 50 _ _ "" "" ca none none none (by decide))
      (le_refl _) (le_refl _)

/-- The classic-branch tool-call fold is a stage writing only
`running/50` records. -/
theorem toolCallFold_ext (env : WorkerEnv) (tc0 : Option Args) (ca : Option String) :
    ∀ (calls : List ChatToolCall) (acc : ToolsFoldAcc),
    stageExt acc.st (stOfStep (calls.foldlM (toolCallStep env tc0 ca) acc)) 50 50 := by
  intro calls
  induction calls with
  | nil =>
      intro acc
      have h : ([] : List ChatToolCall).foldlM (toolCallStep env tc0 ca) acc =
          Except.ok acc := rfl
      rw [h]
      exact stageExt_refl _ _ _
  | cons a t ih =>
      intro acc
      have hfold : (a :: t).foldlM (toolCallStep env tc0 ca) acc =
          match toolCallStep env tc0 ca acc a with
          | .error p => .error p
          | .ok acc2 => t.foldlM (toolCallStep env tc0 ca) acc2 := by
        simp only [List.foldlM]
        rcases toolCallStep env tc0 ca acc a with p | acc2 <;> rfl
      rw [hfold]
      rcases h : toolCallStep env tc0 ca acc a with p | acc2
      · have h1 := toolCallStep_ext env tc0 ca acc a
        rw [h] at h1
        exact h1
      · have h1 := toolCallStep_ext env tc0 ca acc a
        rw [h] at h1
        exact stageExt_trans h1 (ih acc2) (le_refl _) (le_refl _)

/-- The classic-branch tail is a stage writing only the `running/90`
record. -/
theorem workerClassicFinish_ext (env : WorkerEnv) (st : WSt)
    (messages : List ChatMsg) (model : Option String) (ca : Option String)
    (out : Option String) (used : List String) :
    stageExt st (stOfBranch (workerClassicFinish env st messages model ca out used))
      90 90 := by
  unfold workerClassicFinish
  dsimp only
  by_cases ho : (!strTruthy out) = true
  · rw [if_pos ho]
    rcases hc : env.chatCreate st.events ⟨model, messages, [], none⟩ with e | r <;>
      exact stageExt_trans (stageExt_evs st st.store st.writes _ 90 90 rfl)
        (wWriteStatus_ext env _ "running" 90 _ "" "" "" ca none none none (by decide))
        (le_refl _) (le_refl _)
  · rw [if_neg ho]
    exact wWriteStatus_ext env st "running" 90 _ "" "" "" ca none none none (by decide)

/-- The tool-execution sub-block is a stage with writes in `[50, 90]`. -/
theorem workerToolLoopBlock_ext (env : WorkerEnv) (tc0 : Option Args)
    (ca : Option String) (model : Option String) (messages : List ChatMsg)
    (resp : ChatResp) (st : WSt) :
    stageExt st (stOfBranch (workerToolLoopBlock env tc0 ca model messages resp st))
      50 90 := by
  unfold workerToolLoopBlock
  have hf := toolCallFold_ext env tc0 ca resp.toolCalls ⟨st, [], []⟩
  rcases hfold : resp.toolCalls.foldlM (toolCallStep env tc0 ca)
      (⟨st, [], []⟩ : ToolsFoldAcc) with p | acc
  · rw [hfold] at hf
    exact stageExt_mono (by decide) (by decide) hf
  · rw [hfold] at hf
    dsimp only
    rcases hc : env.chatCreate acc.st.events
        ⟨model, messages ++ [ChatMsg.assistantCall resp] ++ acc.toolMsgs, [], none⟩
        with e | follow
    · exact stageExt_trans hf
        (stageExt_mono (by decide) (by decide)
          (stageExt_evs acc.st acc.st.store acc.st.writes _ 50 90 rfl))
        (by decide) (by decide)
    · have hfin := workerClassicFinish_ext env
        (⟨acc.st.store, acc.st.writes, acc.st.events ++
          [WEvent.wChat ⟨model, messages ++ [ChatMsg.assistantCall resp] ++
            acc.toolMsgs, [], none⟩]⟩ : WSt)
        messages model ca (some (follow.content.getD "")) acc.toolsUsed
      exact stageExt_trans hf
        (stageExt_trans
          (stageExt_evs acc.st acc.st.store acc.st.writes _ 50 90 rfl)
          (stageExt_mono (by decide) (by decide) hfin)
          (by decide) (by decide))
        (by decide) (by decide)

/-- The classic-tools branch is a stage with writes in `[20, 90]`. -/
theorem workerBranchClassic_ext (env : WorkerEnv) (st : WSt) (args : RespArgs)
    (model : Option String) (userId : String) (ca : Option String) :
    stageExt st (stOfBranch (workerBranchClassic env st args model userId ca))
      20 90 := by
  unfold workerBranchClassic
  dsimp only
  have h20 := wWriteStatus_ext env st "running" 20 "I\x27m thinking ..." "" "" ""
    ca none none none (by decide)
  set st20 := wWriteStatus env st "running" 20 "I\x27m thinking ..." "" "" ""
    ca none none none with hst20
  split
  · rcases hc : env.chatCreate st20.events (classicChatArgs args model userId)
        with e | resp
    · exact stageExt_trans h20
        (stageExt_mono (by decide) (by decide)
          (stageExt_evs st20 st20.store st20.writes _ 20 90 rfl))
        (by decide) (by decide)
    · dsimp only
      split
      · have hb := workerToolLoopBlock_ext env (classicTc userId) ca model
          (classicMessages args userId) resp
          (⟨st20.store, st20.writes, st20.events ++
            [WEvent.wChat (classicChatArgs args model userId)]⟩ : WSt)
        exact stageExt_trans h20
          (stageExt_trans
            (stageExt_evs st20 st20.store st20.writes _ 20 50 rfl)
            hb
            (by decide) (by decide))
          (by decide) (by decide)
      · have hfin := workerClassicFinish_ext env
          (⟨st20.store, st20.writes, st20.events ++
            [WEvent.wChat (classicChatArgs args model userId)]⟩ : WSt)
          (classicMessages args userId) model ca (some (resp.content.getD "")) []
        exact stageExt_trans h20
          (stageExt_trans
            (stageExt_evs st20 st20.store st20.writes _ 20 90 rfl)
            (stageExt_mono (by decide) (by decide) hfin)
            (by decide) (by decide))
          (by decide) (by decide)
  · rcases hc : env.chatCreate st20.events ⟨model, chatMsgsOfInput args.input, [], none⟩
        with e | resp
    · exact stageExt_trans h20
        (stageExt_mono (by decide) (by decide)
          (stageExt_evs st20 st20.store st20.writes _ 20 90 rfl))
        (by decide) (by decide)
    · have hfin := workerClassicFinish_ext env
        (⟨st20.store, st20.writes, st20.events ++
          [WEvent.wChat ⟨model, chatMsgsOfInput args.input, [], none⟩]⟩ : WSt)
        (chatMsgsOfInput args.input) model ca (some (resp.content.getD "")) []
      exact stageExt_trans h20
        (stageExt_trans
          (stageExt_evs st20 st20.store st20.writes _ 20 90 rfl)
          (stageExt_mono (by decide) (by decide) hfin)
          (by decide) (by decide))
        (by decide) (by decide)

/-- The MCP-tools branch is a stage with writes in `[20, 90]`. -/
theorem workerBranchMcp_ext (env : WorkerEnv) (st : WSt) (args : RespArgs)
    (userId : String) (ca : Option String) :
    stageExt st (stOfBranch (workerBranchMcp env st args userId ca)) 20 90 := by
  unfold workerBranchMcp
  dsimp only
  have h20 := wWriteStatus_ext env st "running" 20 "I\x27m thinking ..." "" "" ""
    ca none none none (by decide)
  set st20 := wWriteStatus env st "running" 20 "I\x27m thinking ..." "" "" ""
    ca none none none with hst20
  split
  · exact stageExt_trans h20
      (stageExt_mono (by decide) (by decide)
        (stageExt_evs st20 st20.store st20.writes _ 20 90 rfl))
      (by decide) (by decide)
  · exact stageExt_trans h20
      (stageExt_trans
        (stageExt_evs st20 st20.store st20.writes _ 20 90 rfl)
        (wWriteStatus_ext env _ "running" 90 _ "" "" "" ca none none none (by decide))
        (by decide) (by decide))
      (by decide) (by decide)

/-- The no-tools branch is a stage with writes in `[15, 90]`. -/
theorem workerBranchPlain_ext (env : WorkerEnv) (st : WSt) (args : RespArgs)
    (model : Option String) (isReasoning : Bool) (ca : Option String) :
    stageExt st (stOfBranch (workerBranchPlain env st args model isReasoning ca))
      15 90 := by
  unfold workerBranchPlain
  dsimp only
  have h15 := wWriteStatus_ext env st "running" 15
    (if isReasoning then "Deep analysis in progress..." else "Generating response...")
    "" "" "" ca none none none (by decide)
  set st15 := wWriteStatus env st "running" 15
    (if isReasoning then "Deep analysis in progress..." else "Generating response...")
    "" "" "" ca none none none with hst15
  split
  · exact stageExt_trans h15
      (stageExt_trans
        (stageExt_evs st15 st15.store st15.writes _ 15 90 rfl)
        (wWriteStatus_ext env _ "running" 90 _ "" "" "" ca none none none (by decide))
        (by decide) (by decide))
      (by decide) (by decide)
  · exact stageExt_trans h15
      (stageExt_mono (by decide) (by decide)
        (stageExt_evs st15 st15.store st15.writes _ 15 90 rfl))
      (by decide) (by decide)

/-- The preparation stage writes exactly the `running/10` record. -/
theorem workerPrepare_ext (env : WorkerEnv) (body : Body) (jtype : String)
    (st : WSt) (prompt : String) (ca : Option String) :
    stageExt st (stOfPrep (workerPrepare env body jtype st prompt ca)) 10 10 := by
  unfold workerPrepare
  dsimp only
  split
  · exact wWriteStatus_ext env st "running" 10 "Thinking..." "" "" "" ca _ _ none
      (by decide)
  · split
    · split
      · exact stageExt_evs st st.store st.writes _ 10 10 rfl
      · exact stageExt_trans
          (stageExt_evs st st.store st.writes _ 10 10 rfl)
          (wWriteStatus_ext env _ "running" 10 "Thinking..." "" "" "" ca _ _ none
            (by decide))
          (by decide) (by decide)
    · split
      · exact stageExt_evs st st.store st.writes _ 10 10 rfl
      · exact stageExt_trans
          (stageExt_evs st st.store st.writes _ 10 10 rfl)
          (wWriteStatus_ext env _ "running" 10 "Thinking..." "" "" "" ca _ _ none
            (by decide))
          (by decide) (by decide)

/-- The selected branch is a stage with writes in `[15, 90]`. -/
theorem workerSelectBranch_ext (env : WorkerEnv) (args : RespArgs)
    (model : Option String) (userId : String) (isReasoning : Bool)
    (ca : Option String) (st : WSt) :
    stageExt st (stOfBranch
      (workerSelectBranch env args model userId isReasoning ca st)) 15 90 := by
  unfold workerSelectBranch
  split
  · exact stageExt_mono (by decide) (by decide)
      (workerBranchClassic_ext env st args model userId ca)
  · split
    · exact stageExt_mono (by decide) (by decide)
        (workerBranchMcp_ext env st args userId ca)
    · exact workerBranchPlain_ext env st args model isReasoning ca

/-- The post-preparation phase is a stage with writes in `[15, 100]`. -/
theorem workerAfterPrep_ext (env : WorkerEnv) (body : Body) (prompt userId : String)
    (cid : Option String) (ca : Option String) (st : WSt) (args0 : RespArgs)
    (model : Option String) (re : String) :
    stageExt st (stOfBody
      (workerAfterPrep env body prompt userId cid ca st args0 model re)) 15 100 := by
  unfold workerAfterPrep
  dsimp only
  have hin := injectHistory_ext env st userId cid (filteredArgs env.py body args0) 15 15
  have hbr := workerSelectBranch_ext env
    (injectHistory env st userId cid (filteredArgs env.py body args0)).2 model userId
    (re == "medium" || re == "high" ||
      reasoningKeywords.any (fun k => containsSub (pyLower prompt) k)) ca
    (injectHistory env st userId cid (filteredArgs env.py body args0)).1
  have hall := stageExt_trans hin hbr (le_refl _) (by decide)
  split
  · next p hp =>
      rw [hp] at hall
      exact stageExt_mono (by decide) (by decide) hall
  · next t hp =>
      rw [hp] at hall
      have h1 := stageExt_mono (le_refl (15 : Int)) (by decide : (90 : Int) ≤ 100) hall
      exact stageExt_trans h1
        (wWriteStatus_ext env _ _ 100 _ _ "" _ ca none none _
          (by split <;> decide))
        (by decide) (by decide)

/-- The worker body is a stage with writes in `[10, 100]`. -/
theorem workerBody_ext (env : WorkerEnv) (body : Body) (jtype : String) (st : WSt) :
    stageExt st (stOfBody (workerBody env body jtype st)) 10 100 := by
  unfold workerBody
  dsimp only
  split
  · exact stageExt_evs st st.store st.writes _ 10 100 rfl
  · have hev : stageExt st
        (⟨st.store, st.writes, st.events ++ [WEvent.wClientCreate]⟩ : WSt) 10 10 :=
      stageExt_evs st st.store st.writes _ 10 10 rfl
    have hprep := workerPrepare_ext env body jtype
      (⟨st.store, st.writes, st.events ++ [WEvent.wClientCreate]⟩ : WSt)
      ((pyOrStr body.prompt (some "")).getD "")
      (st.store.bind (fun r => r.createdAt))
    split
    · next p hp =>
        rw [hp] at hprep
        exact stageExt_mono (by decide) (by decide)
          (stageExt_trans hev hprep (by decide) (by decide))
    · next st2 args0 model re hp =>
        rw [hp] at hprep
        have h1 := stageExt_trans hev hprep (by decide) (by decide)
        have h2 := workerAfterPrep_ext env body
          ((pyOrStr body.prompt (some "")).getD "")
          (pyTrim ((pyOrStr body.user_id (some "")).getD ""))
          (if (pyTrim ((pyOrStr body.conversation_id (some "")).getD "")).isEmpty
            then none
            else if pyLower (pyTrim ((pyOrStr body.conversation_id
              (some "")).getD "")) == "init" then none
            else some (pyTrim ((pyOrStr body.conversation_id (some "")).getD "")))
          (st.store.bind (fun r => r.createdAt)) st2 args0 model re
        exact stageExt_trans h1 (stageExt_mono (by decide) (le_refl _) h2)
          (by decide) (by decide)

/-- `mcp_process_worker` is a stage over the initial state, with writes
in `[10, 100]`. -/
theorem mcp_process_worker_ext (env : WorkerEnv) (p : WPayload)
    (store0 : Option JobRec) :
    stageExt ⟨store0, [], []⟩ (mcp_process_worker env p store0).1 10 100 := by
  unfold mcp_process_worker
  dsimp only
  split
  · exact stageExt_refl _ 10 100
  · have hb := workerBody_ext env p.body (p.ptype.getD "mcp") ⟨store0, [], []⟩
    split
    · next st hp =>
        rw [hp] at hb
        exact hb
    · next e st hp =>
        rw [hp] at hb
        exact stageExt_trans hb
          (wWriteStatus_ext env st "failed" 100 _ "" "" "" none none none none
            (by decide))
          (by decide) (by decide)

/-- A record is terminal when its status is `completed` or `failed`. -/
def isTerminalRec (r : JobRec) : Bool :=
  r.status == some "completed" || r.status == some "failed"

/-- A chronological sequence of observed records never shows a progress
drop before a terminal record is reached. -/
def noRevertBeforeTerminal : List JobRec → Bool
  | [] => true
  | [_] => true
  | a :: b :: t =>
      if isTerminalRec a then true
      else decide (progOf a ≤ progOf b) && noRevertBeforeTerminal (b :: t)

/-- The records a poller observes when a first worker run for a job is
interrupted after its `k`-th write and the queue message is redelivered
(at-least-once delivery): the first `k` stored records, then the records
stored by the rerun, which starts from the blob the crash left behind. -/
def obsAfterCrash (env : WorkerEnv) (p : WPayload) (store0 : Option JobRec)
    (k : Nat) : List JobRec :=
  let pre := ((mcp_process_worker env p store0).1.writes).take k
  pre ++ (mcp_process_worker env p (pre.getLast?.orElse (fun _ => store0))).1.writes

/-- A worker oracle environment for concrete runs: client creation and
chat completions always succeed, every chat answer is the plain text
`"done"` with no tool calls, and the memory store is empty. -/
def envWk : WorkerEnv :=
  ⟨envW,
   ⟨fun _ _ => Except.ok emptyResponse, fun _ _ => Except.ok emptyResponse,
    fun _ _ _ _ => Except.ok emptyResponse, fun _ _ _ _ => Except.ok "r"⟩,
   fun _ => Except.ok (),
   fun _ _ => Except.ok ⟨some "done", []⟩,
   fun _ _ _ _ => Except.ok "r",
   fun _ _ _ _ => Except.ok [],
   "T"⟩

/-- A queue payload: an `orchestrate` job with prompt `"hi"` and no
optional body keys. -/
def payloadWk : WPayload :=
  ⟨some "j1",
   ⟨some "hi", none, none, none, none, none, none, PyVal.pnone, none, none⟩,
   some "orchestrate"⟩

/-- The queued record stored at enqueue time. -/
def store0Wk : Option JobRec :=
  some ⟨some "queued", some 0, some "Queued", none, none, none, none,
    some "T0", none, none, none, []⟩

/-- C3 counterexample: a successful `orchestrate` run writes progress
`10, 20, 90, 100`; interrupting it after the second write (stored
record `running/20`, non-terminal) and re-running the worker on the
redelivered message makes a poller observe
`10, 20, 10, 20, 90, 100` -- the progress value reverts from `20` to
`10` while the job is still non-terminal, so the claimed cross-delivery
monotonicity fails. -/
theorem c3_counterexample :
    (mcp_process_worker envWk payloadWk store0Wk).1.writes.map
      (fun r => (progOf r, r.status)) =
      [(10, some "running"), (20, some "running"), (90, some "running"),
       (100, some "completed")] ∧
    (obsAfterCrash envWk payloadWk store0Wk 2).map
      (fun r => (progOf r, r.status)) =
      [(10, some "running"), (20, some "running"), (10, some "running"),
       (20, some "running"), (90, some "running"), (100, some "completed")] ∧
    noRevertBeforeTerminal (obsAfterCrash envWk payloadWk store0Wk 2) = false := by
  refine ⟨?_, ?_, ?_⟩ <;> decide

/-- C3 (amended): within a single worker invocation the sequence of job
record writes has monotonically non-decreasing progress, every written
progress value lies in `[10, 100]`, and no write carries status
`queued`; but across an at-least-once redelivery the property does not
hold, since a rerun restarts its writes at `running/10`. -/
theorem c3_single_run_monotone (env : WorkerEnv) (p : WPayload)
    (store0 : Option JobRec) :
    progMono (mcp_process_worker env p store0).1.writes ∧
    ∀ r ∈ (mcp_process_worker env p store0).1.writes,
      10 ≤ progOf r ∧ progOf r ≤ 100 ∧ r.status ≠ some "queued" := by
  obtain ⟨-, ws, hw, hm, hq⟩ := mcp_process_worker_ext env p store0
  refine ⟨?_, ?_⟩
  · rw [hw]
    simpa using hm
  · intro r hr
    rw [hw] at hr
    exact hq r (by simpa using hr)

/-- Is a worker event a job-record write? -/
def isWriteEv : WEvent → Bool
  | .wWrite _ => true
  | _ => false

/-- The preparation stage appends no write and exactly the
`wResolveMcp` event on failure, and on success exactly the
`running/10` "Thinking..." write, preceded (for any job type other
than `orchestrate`) by the tool-configuration resolution. -/
theorem workerPrepare_writes (env : WorkerEnv) (body : Body) (jtype : String)
    (st : WSt) (prompt : String) (ca : Option String) :
    match workerPrepare env body jtype st prompt ca with
    | .error p => p.2.writes = st.writes ∧ (jtype == "orchestrate") = false ∧
        p.2.events = st.events ++ [WEvent.wResolveMcp]
    | .ok (st1, _, _, _) => ∃ r, st1.writes = st.writes ++ [r] ∧
        r.status = some "running" ∧ r.progress = some 10 ∧
        r.message = some "Thinking..." ∧
        st1.events = st.events ++
          ((if (jtype == "orchestrate") = true then [] else [WEvent.wResolveMcp]) ++
            [WEvent.wWrite r]) := by
  unfold workerPrepare
  by_cases h1 : (jtype == "orchestrate") = true
  · rw [if_pos h1]
    refine ⟨_, rfl, rfl, rfl, rfl, ?_⟩
    rw [if_pos h1]
    rfl
  · rw [if_neg h1]
    have h1f : (jtype == "orchestrate") = false := by simpa using h1
    by_cases h2 : (jtype == "ask") = true
    · rw [if_pos h2]
      rcases hr : resolve_mcp_config env.py body with e | cfg
      · exact ⟨rfl, h1f, rfl⟩
      · refine ⟨_, rfl, rfl, rfl, rfl, ?_⟩
        rw [if_neg h1]
        exact List.append_assoc _ _ _
    · rw [if_neg h2]
      rcases hr : resolve_mcp_config env.py body with e | cfg
      · exact ⟨rfl, h1f, rfl⟩
      · refine ⟨_, rfl, rfl, rfl, rfl, ?_⟩
        rw [if_neg h1]
        exact List.append_assoc _ _ _

/-- When client creation succeeds, the worker body\x27s trace starts
with the client creation and then either performs the `running/10`
"Thinking..." write -- preceded, for any job type other than
`orchestrate`, by exactly the tool-configuration resolution -- as its
first job-record write, or (only when preparation raises) performs no
write at all, its trace being exactly the client creation followed by
the failing resolution. -/
theorem workerBody_first (env : WorkerEnv) (body : Body) (jtype : String)
    (store0 : Option JobRec)
    (hc : env.createClient [] = Except.ok ()) :
    (∃ r rest, (stOfBody (workerBody env body jtype ⟨store0, [], []⟩)).events =
        WEvent.wClientCreate ::
          ((if (jtype == "orchestrate") = true then [] else [WEvent.wResolveMcp]) ++
            (WEvent.wWrite r :: rest)) ∧
      (stOfBody (workerBody env body jtype ⟨store0, [], []⟩)).writes.head? = some r ∧
      r.status = some "running" ∧ r.progress = some 10 ∧
      r.message = some "Thinking..." ∧
      ∃ t, workerPrepare env body jtype ⟨store0, [], [WEvent.wClientCreate]⟩
        ((pyOrStr body.prompt (some "")).getD "")
        (store0.bind (fun r => r.createdAt)) = Except.ok t)
    ∨ ((jtype == "orchestrate") = false ∧
       (stOfBody (workerBody env body jtype ⟨store0, [], []⟩)).events =
         [WEvent.wClientCreate, WEvent.wResolveMcp] ∧
       (stOfBody (workerBody env body jtype ⟨store0, [], []⟩)).writes = [] ∧
       (∃ q, workerPrepare env body jtype ⟨store0, [], [WEvent.wClientCreate]⟩
          ((pyOrStr body.prompt (some "")).getD "")
          (store0.bind (fun r => r.createdAt)) = Except.error q) ∧
       ∃ p2, workerBody env body jtype ⟨store0, [], []⟩ = Except.error p2) := by
  unfold workerBody
  dsimp only
  rw [hc]
  dsimp only
  have hw := workerPrepare_writes env body jtype
    (⟨store0, [], [] ++ [WEvent.wClientCreate]⟩ : WSt)
    ((pyOrStr body.prompt (some "")).getD "")
    (store0.bind (fun r => r.createdAt))
  rcases hp : workerPrepare env body jtype
      (⟨store0, [], [] ++ [WEvent.wClientCreate]⟩ : WSt)
      ((pyOrStr body.prompt (some "")).getD "")
      (store0.bind (fun r => r.createdAt)) with p2 | t
  · rw [hp] at hw
    dsimp only at hw
    obtain ⟨hwW, hor, hev⟩ := hw
    right
    refine ⟨hor, ?_, hwW, ⟨p2, hp⟩, ⟨p2, rfl⟩⟩
    dsimp only [stOfBody]
    rw [hev]
    rfl
  · obtain ⟨st2, a, m, re⟩ := t
    rw [hp] at hw
    dsimp only at hw
    obtain ⟨r0, hr0, hrs, hrp, hrm, hre⟩ := hw
    left
    have ha := workerAfterPrep_ext env body
      ((pyOrStr body.prompt (some "")).getD "")
      (pyTrim ((pyOrStr body.user_id (some "")).getD ""))
      (if (pyTrim ((pyOrStr body.conversation_id (some "")).getD "")).isEmpty
        then none
        else if pyLower (pyTrim ((pyOrStr body.conversation_id
          (some "")).getD "")) == "init" then none
        else some (pyTrim ((pyOrStr body.conversation_id (some "")).getD "")))
      (store0.bind (fun r => r.createdAt)) st2 a m re
    obtain ⟨⟨d2, hd2⟩, ws2, hw2, -⟩ := ha
    refine ⟨r0, d2, ?_, ?_, hrs, hrp, hrm, ⟨(st2, a, m, re), hp⟩⟩
    · rw [hd2, hre]
      simp
    · rw [hw2, hr0]
      rfl

/-- The head of an append is the head of a non-empty left part. -/
theorem head_append_of_head {α : Type} {l1 l2 : List α} {a : α}
    (h : l1.head? = some a) : (l1 ++ l2).head? = some a := by
  cases l1 with
  | nil => simp at h
  | cons x t => simpa using h

/-- C9 counterexample: on a successful `orchestrate` run the worker\x27s
first job-record write has progress `10`, not `1`, and the event trace
begins with the LLM client creation, i.e. model-related work is
performed before the first write, contradicting the claimed order. -/
theorem c9_counterexample :
    ((mcp_process_worker envWk payloadWk store0Wk).1.writes.head?.map progOf
      = some 10) ∧
    ((mcp_process_worker envWk payloadWk store0Wk).1.writes.head?.map progOf
      ≠ some 1) ∧
    (mcp_process_worker envWk payloadWk store0Wk).1.events.head?
      = some WEvent.wClientCreate := by
  refine ⟨by decide, by decide, rfl⟩

/-- C9 (amended): for a truthy job id and a client creation that
succeeds, the invocation\x27s event trace starts with the client
creation; no write of the invocation has status `queued`; every event
preceding the first job-record write is the client creation or the
tool-configuration resolution -- in particular no generation request
precedes the first write; for any job type other than `orchestrate`
the tool-configuration resolution precedes the first write; and the
first write, when any occurs, is either the `running/10` "Thinking..."
record, or -- exactly when preparation raises -- the terminal
`failed/100` record of the exception handler, which is then the only
write of a re-raising invocation. -/
theorem c9_first_write (env : WorkerEnv) (p : WPayload) (store0 : Option JobRec)
    (hj : strTruthy p.job_id = true)
    (hc : env.createClient [] = Except.ok ()) :
    (mcp_process_worker env p store0).1.events.head? = some WEvent.wClientCreate ∧
    (∀ r ∈ (mcp_process_worker env p store0).1.writes, r.status ≠ some "queued") ∧
    (∀ e ∈ (mcp_process_worker env p store0).1.events.takeWhile
        (fun ev => !isWriteEv ev),
      e = WEvent.wClientCreate ∨ e = WEvent.wResolveMcp) ∧
    ((p.ptype.getD "mcp" == "orchestrate") = false →
      WEvent.wResolveMcp ∈ (mcp_process_worker env p store0).1.events.takeWhile
        (fun ev => !isWriteEv ev)) ∧
    (∀ r, (mcp_process_worker env p store0).1.writes.head? = some r →
      (r.status = some "running" ∧ r.progress = some 10 ∧
        r.message = some "Thinking...") ∨
      (r.status = some "failed" ∧ r.progress = some 100 ∧
        (mcp_process_worker env p store0).1.writes = [r] ∧
        (mcp_process_worker env p store0).2.isSome = true ∧
        ∃ q, workerPrepare env p.body (p.ptype.getD "mcp")
            ⟨store0, [], [WEvent.wClientCreate]⟩
            ((pyOrStr p.body.prompt (some "")).getD "")
            (store0.bind (fun r => r.createdAt)) = Except.error q)) ∧
    ∀ q, workerPrepare env p.body (p.ptype.getD "mcp")
        ⟨store0, [], [WEvent.wClientCreate]⟩
        ((pyOrStr p.body.prompt (some "")).getD "")
        (store0.bind (fun r => r.createdAt)) = Except.error q →
      ∃ r, (mcp_process_worker env p store0).1.writes = [r] ∧
        r.status = some "failed" ∧ r.progress = some 100 := by
  have hnq : ∀ r ∈ (mcp_process_worker env p store0).1.writes,
      r.status ≠ some "queued" := by
    obtain ⟨-, ws, hw, -, hq⟩ := mcp_process_worker_ext env p store0
    intro r hr
    rw [hw] at hr
    exact (hq r (by simpa using hr)).2.2
  have hjj : (!strTruthy p.job_id) = false := by rw [hj]; rfl
  have hbf := workerBody_first env p.body (p.ptype.getD "mcp") store0 hc
  have rest4 : (mcp_process_worker env p store0).1.events.head?
        = some WEvent.wClientCreate ∧
      (∀ e ∈ (mcp_process_worker env p store0).1.events.takeWhile
          (fun ev => !isWriteEv ev),
        e = WEvent.wClientCreate ∨ e = WEvent.wResolveMcp) ∧
      (((p.ptype.getD "mcp" == "orchestrate") = false →
        WEvent.wResolveMcp ∈ (mcp_process_worker env p store0).1.events.takeWhile
          (fun ev => !isWriteEv ev))) ∧
      (∀ r, (mcp_process_worker env p store0).1.writes.head? = some r →
        (r.status = some "running" ∧ r.progress = some 10 ∧
          r.message = some "Thinking...") ∨
        (r.status = some "failed" ∧ r.progress = some 100 ∧
          (mcp_process_worker env p store0).1.writes = [r] ∧
          (mcp_process_worker env p store0).2.isSome = true ∧
          ∃ q, workerPrepare env p.body (p.ptype.getD "mcp")
              ⟨store0, [], [WEvent.wClientCreate]⟩
              ((pyOrStr p.body.prompt (some "")).getD "")
              (store0.bind (fun r => r.createdAt)) = Except.error q)) ∧
      ∀ q, workerPrepare env p.body (p.ptype.getD "mcp")
          ⟨store0, [], [WEvent.wClientCreate]⟩
          ((pyOrStr p.body.prompt (some "")).getD "")
          (store0.bind (fun r => r.createdAt)) = Except.error q →
        ∃ r, (mcp_process_worker env p store0).1.writes = [r] ∧
          r.status = some "failed" ∧ r.progress = some 100 := by
    unfold mcp_process_worker
    dsimp only
    simp only [hjj, Bool.false_eq_true, if_false]
    rcases hb : workerBody env p.body (p.ptype.getD "mcp") ⟨store0, [], []⟩
      with ⟨e, st2⟩ | st
    · rw [hb] at hbf
      dsimp only [stOfBody] at hbf
      rcases hbf with ⟨r0, rest, hev, hhd, hrs, hrp, hrm, hpOk⟩ |
        ⟨hor, hev, hwr, hpq, -⟩
      · by_cases horch : (p.ptype.getD "mcp" == "orchestrate") = true
        · rw [if_pos horch] at hev
          have hevF : (wWriteStatus env st2 "failed" 100 ("Error: " ++ e)
                "" "" "" none none none none).events =
              WEvent.wClientCreate :: WEvent.wWrite r0 ::
                (rest ++ [WEvent.wWrite (updateJobStatus st2.store env.now
                  "failed" 100 ("Error: " ++ e) "" "" "" none none none none)]) := by
            dsimp only [wWriteStatus]
            rw [hev]
            rfl
          have ht : ((wWriteStatus env st2 "failed" 100 ("Error: " ++ e)
                "" "" "" none none none none).events.takeWhile
                (fun ev => !isWriteEv ev)) = [WEvent.wClientCreate] := by
            rw [hevF]
            rfl
          refine ⟨?_, ?_, ?_, ?_, ?_⟩
          · rw [hevF]
            rfl
          · rw [ht]
            simp
          · intro h4
            rw [h4] at horch
            cases horch
          · intro r hr
            dsimp only [wWriteStatus] at hr
            rcases hws : st2.writes with _ | ⟨x, t⟩
            · rw [hws] at hhd
              simp at hhd
            · rw [hws] at hr hhd
              simp at hr hhd
              rw [← hr, hhd]
              exact Or.inl ⟨hrs, hrp, hrm⟩
          · intro q hq
            obtain ⟨t0, ht0⟩ := hpOk
            rw [hq] at ht0
            exact Except.noConfusion ht0
        · rw [if_neg horch] at hev
          have hevF : (wWriteStatus env st2 "failed" 100 ("Error: " ++ e)
                "" "" "" none none none none).events =
              WEvent.wClientCreate :: WEvent.wResolveMcp :: WEvent.wWrite r0 ::
                (rest ++ [WEvent.wWrite (updateJobStatus st2.store env.now
                  "failed" 100 ("Error: " ++ e) "" "" "" none none none none)]) := by
            dsimp only [wWriteStatus]
            rw [hev]
            rfl
          have ht : ((wWriteStatus env st2 "failed" 100 ("Error: " ++ e)
                "" "" "" none none none none).events.takeWhile
                (fun ev => !isWriteEv ev)) =
              [WEvent.wClientCreate, WEvent.wResolveMcp] := by
            rw [hevF]
            rfl
          refine ⟨?_, ?_, ?_, ?_, ?_⟩
          · rw [hevF]
            rfl
          · rw [ht]
            simp
          · intro h4
            rw [ht]
            simp
          · intro r hr
            dsimp only [wWriteStatus] at hr
            rcases hws : st2.writes with _ | ⟨x, t⟩
            · rw [hws] at hhd
              simp at hhd
            · rw [hws] at hr hhd
              simp at hr hhd
              rw [← hr, hhd]
              exact Or.inl ⟨hrs, hrp, hrm⟩
          · intro q hq
            obtain ⟨t0, ht0⟩ := hpOk
            rw [hq] at ht0
            exact Except.noConfusion ht0
      · have hevF : (wWriteStatus env st2 "failed" 100 ("Error: " ++ e)
              "" "" "" none none none none).events =
            [WEvent.wClientCreate, WEvent.wResolveMcp,
             WEvent.wWrite (updateJobStatus st2.store env.now
               "failed" 100 ("Error: " ++ e) "" "" "" none none none none)] := by
          dsimp only [wWriteStatus]
          rw [hev]
          rfl
        have ht : ((wWriteStatus env st2 "failed" 100 ("Error: " ++ e)
              "" "" "" none none none none).events.takeWhile
              (fun ev => !isWriteEv ev)) =
            [WEvent.wClientCreate, WEvent.wResolveMcp] := by
          rw [hevF]
          rfl
        refine ⟨?_, ?_, ?_, ?_, ?_⟩
        · rw [hevF]
          rfl
        · rw [ht]
          simp
        · intro h4
          rw [ht]
          simp
        · intro r hr
          dsimp only [wWriteStatus] at hr
          rw [hwr] at hr
          simp at hr
          refine Or.inr ⟨?_, ?_, ?_, rfl, hpq⟩
          · rw [← hr]
            rfl
          · rw [← hr]
            rfl
          · dsimp only [wWriteStatus]
            rw [hwr, ← hr]
            rfl
        · intro q hq
          refine ⟨updateJobStatus st2.store env.now "failed" 100 ("Error: " ++ e)
            "" "" "" none none none none, ?_, rfl, rfl⟩
          dsimp only [wWriteStatus]
          rw [hwr]
          rfl
    · rw [hb] at hbf
      dsimp only [stOfBody] at hbf
      rcases hbf with ⟨r0, rest, hev, hhd, hrs, hrp, hrm, hpOk⟩ |
        ⟨-, -, -, -, p2, hbe⟩
      · by_cases horch : (p.ptype.getD "mcp" == "orchestrate") = true
        · rw [if_pos horch] at hev
          have ht : (st.events.takeWhile (fun ev => !isWriteEv ev)) =
              [WEvent.wClientCreate] := by
            rw [hev]
            rfl
          refine ⟨?_, ?_, ?_, ?_, ?_⟩
          · rw [hev]
            rfl
          · rw [ht]
            simp
          · intro h4
            rw [h4] at horch
            cases horch
          · intro r hr
            rw [hhd] at hr
            simp at hr
            rw [← hr]
            exact Or.inl ⟨hrs, hrp, hrm⟩
          · intro q hq
            obtain ⟨t0, ht0⟩ := hpOk
            rw [hq] at ht0
            exact Except.noConfusion ht0
        · rw [if_neg horch] at hev
          have ht : (st.events.takeWhile (fun ev => !isWriteEv ev)) =
              [WEvent.wClientCreate, WEvent.wResolveMcp] := by
            rw [hev]
            rfl
          refine ⟨?_, ?_, ?_, ?_, ?_⟩
          · rw [hev]
            rfl
          · rw [ht]
            simp
          · intro h4
            rw [ht]
            simp
          · intro r hr
            rw [hhd] at hr
            simp at hr
            rw [← hr]
            exact Or.inl ⟨hrs, hrp, hrm⟩
          · intro q hq
            obtain ⟨t0, ht0⟩ := hpOk
            rw [hq] at ht0
            exact Except.noConfusion ht0
      · exact Except.noConfusion hbe
  exact ⟨rest4.1, hnq, rest4.2.1, rest4.2.2.1, rest4.2.2.2.1, rest4.2.2.2.2⟩

/-- C9 witness: a concrete successful run whose event trace starts with
the client creation. -/
theorem c9_first_write_witness :
    (mcp_process_worker envWk payloadWk store0Wk).1.events.head?
      = some WEvent.wClientCreate :=
  (c9_first_write envWk payloadWk store0Wk (by decide) rfl).1

end FuncOrch
